import Mathlib

/-!
Verification development for the code-commenter repository.

The definitions below are a shallow embedding of the parameter-extraction,
type-inference, return-inference, rendering and comment-detection code of
src/param-utils.js and src/processor.js (the first, authoritative version of
each file; the repository also contains historical variants of both).
JavaScript AST nodes (ESTree / typescript-estree shapes) are modelled as one
inductive type `Node`, mirroring the untyped, string-keyed dispatch of the
source; machine-level JS details are modelled explicitly:

* a JS `undefined` string is `Option.none`, and template-literal interpolation
  of `undefined` renders the text "undefined" (`jsStr`);
* truthiness tests on strings are explicit emptiness tests;
* `String.prototype.startsWith`, `includes`, single `replace` and `trim` are
  modelled on character lists (`jsStartsWith`, `jsIncludes`, `jsReplaceFirst`,
  `jsTrim`);
* code paths that throw a `TypeError` (property access on `null`/`undefined`)
  are modelled with `Except JsErr`.

Expressions are modelled without nested function bodies (a function expression
appearing inside another function's default value or body is out of the
modelled universe); no claim depends on such inputs.
-/

/-- Result type modelling a thrown JavaScript exception (property access on
null or undefined). -/
inductive JsErr where
  | typeError
deriving DecidableEq, Repr

/-- Literal values carried by ESTree `Literal` nodes, as produced by acorn for
the literal shapes the extractor inspects. -/
inductive LitVal where
  | numL (n : Int)
  | strL (s : String)
  | boolL (b : Bool)
  | nullL
deriving DecidableEq, Repr

/-- The JS `typeof` operator applied to a literal's runtime value. -/
def typeofLit : LitVal → String
  | .numL _ => "number"
  | .strL _ => "string"
  | .boolL _ => "boolean"
  | .nullL => "object"

/-- Template-literal interpolation: JS renders `undefined` as the text
"undefined". -/
def jsStr : Option String → String
  | some s => s
  | none => "undefined"

/-- JS `String.prototype.startsWith`, modelled on the character list. -/
def jsStartsWith (s pre : String) : Bool :=
  pre.data.isPrefixOf s.data

/-- JS `String.prototype.endsWith`, modelled on the character list. -/
def jsEndsWith (s suf : String) : Bool :=
  suf.data.isSuffixOf s.data

/-- Character-list worker for `jsIncludes`: does `sub` occur contiguously in
the scanned list? -/
def listHasInfix (sub : List Char) : List Char → Bool
  | [] => sub.isEmpty
  | c :: cs => sub.isPrefixOf (c :: cs) || listHasInfix sub cs

/-- JS `String.prototype.includes`, modelled on the character list. -/
def jsIncludes (s sub : String) : Bool :=
  listHasInfix sub.data s.data

/-- JS `String.prototype.trim`, modelled on the character list (whitespace
per `Char.isWhitespace`, which covers the ASCII whitespace of the modelled
sources). -/
def jsTrim (s : String) : String :=
  ⟨((s.data.dropWhile Char.isWhitespace).reverse.dropWhile Char.isWhitespace).reverse⟩

/-- Character-list worker for `jsReplaceFirst`: replace the first occurrence
of `pat` in the scanned list by `rep`. -/
def replaceFirstCore (pat rep : List Char) : List Char → List Char
  | [] => []
  | c :: cs =>
    if pat.isPrefixOf (c :: cs) then rep ++ (c :: cs).drop pat.length
    else c :: replaceFirstCore pat rep cs

/-- JS `String.prototype.replace` with a plain string pattern: replaces only
the first occurrence (the empty pattern is never used by the source). -/
def jsReplaceFirst (s pat rep : String) : String :=
  ⟨replaceFirstCore pat.data rep.data s.data⟩

/-- ESTree / typescript-estree AST nodes, unified (as in JS, where expression
and pattern node kinds share one space and code dispatches on the `type`
string).  `anno` fields model the optional `typeAnnotation` property. -/
inductive Node where
  | identifier (name : String) (anno : Option Node)
  | literal (v : LitVal)
  | assignPat (left : Node) (right : Node)
  | objectPat (props : List Node) (anno : Option Node)
  | arrayPat (elems : List (Option Node)) (anno : Option Node)
  | restElem (argument : Node)
  | tsParamProperty (parameter : Node)
  | property (key : Node) (value : Node) (anno : Option Node)
  | objectExpr (props : List Node)
  | arrayExpr (elems : List (Option Node))
  | otherExpr (src : String)
  | tsTypeAnno (inner : Node)
  | tsStringKeyword
  | tsNumberKeyword
  | tsBooleanKeyword
  | tsAnyKeyword
  | tsVoidKeyword
  | tsUnknownKeyword
  | tsArrayType (elementType : Node)
  | tsTypeReference (typeName : Option Node)
  | tsQualifiedName (left : Node) (right : Node)
  | tsUnionType (types : List Node)
  | tsIntersectionType (types : List Node)
  | tsLiteralType (lit : Option Node)
  | tsOtherType
deriving Repr

/-- The `.name` property of a node (`undefined` on nodes that are not
identifiers). -/
def nameOfNode : Node → Option String
  | .identifier n _ => some n
  | _ => none

/-- The `.value` property of a node (`undefined` except on `Literal`). -/
def valueOfNode : Node → Option LitVal
  | .literal v => some v
  | _ => none

/-- The `.typeAnnotation` property of a node: present on identifiers, object
and array patterns (typescript-estree attaches it there) and on the
`TSTypeAnnotation` wrapper itself, whose `typeAnnotation` field is the wrapped
type. -/
def annoOfNode : Node → Option Node
  | .identifier _ a => a
  | .objectPat _ a => a
  | .arrayPat _ a => a
  | .tsTypeAnno i => some i
  | _ => none

def sizeOf_annoOfNode {n a : Node} (h : annoOfNode n = some a) :
    sizeOf a < sizeOf n := by
  cases n <;> simp only [annoOfNode] at h <;>
    first
      | (subst h <;> simp <;> omega)
      | (simp at h <;> subst h <;> simp <;> omega)
      | simp at h

mutual

/-- Embedding of `getTSType(tsNode, defaultType)` (src/param-utils.js, lines
16-51).  A node with a truthy `typeAnnotation` field recurses into it first
(this covers the `TSTypeAnnotation` wrapper); otherwise the switch on the
node's `type` string is mirrored case by case, every unrecognized shape
falling to the `defaultType` fallback.  Note the switch has no case for
`TSUnknownKeyword`. -/
def getTSType (tsNode : Node) (defaultType : String) : String :=
  match h : annoOfNode tsNode with
  | some a => getTSType a defaultType
  | none =>
    match tsNode with
    | .tsStringKeyword => "string"
    | .tsNumberKeyword => "number"
    | .tsBooleanKeyword => "boolean"
    | .tsAnyKeyword => "any"
    | .tsVoidKeyword => "void"
    | .tsArrayType elementType => "Array<" ++ getTSType elementType "any" ++ ">"
    | .tsTypeReference typeName =>
      match typeName with
      | some (.identifier n _) => if n ≠ "" then n else defaultType
      | some (.tsQualifiedName l r) => jsStr (nameOfNode l) ++ "." ++ jsStr (nameOfNode r)
      | _ => defaultType
    | .tsUnionType types => String.intercalate " | " (getTSTypeList types defaultType)
    | .tsIntersectionType types => String.intercalate " & " (getTSTypeList types defaultType)
    | .tsLiteralType lit =>
      match lit with
      | some ln =>
        match valueOfNode ln with
        | some v => typeofLit v
        | none => defaultType
      | none => defaultType
    | .objectPat _ _ => "Object"
    | .arrayPat _ _ => "Array"
    | _ => defaultType
termination_by sizeOf tsNode
decreasing_by
  all_goals first
    | exact sizeOf_annoOfNode h
    | (simp <;> omega)

/-- The `.map(t => getTSType(t, defaultType))` of the union/intersection
cases, written as explicit list recursion. -/
def getTSTypeList (ts : List Node) (defaultType : String) : List String :=
  match ts with
  | [] => []
  | t :: rest => getTSType t defaultType :: getTSTypeList rest defaultType
termination_by sizeOf ts
decreasing_by
  all_goals (simp <;> omega)

end

/-- The `.key` property of a node (`undefined` except on `Property`). -/
def keyOfNode : Node → Option Node
  | .property k _ _ => some k
  | _ => none

/-- The `.argument` property of a node (`undefined` except on `RestElement`). -/
def argOfNode : Node → Option Node
  | .restElem a => some a
  | _ => none

/-- Embedding of `getPropertyName(property)` (src/param-utils.js, lines 8-14):
a truthy `key` wins, then a truthy `argument`, then an identifier's own name;
otherwise the string "unknown".  The result is the raw JS value, which can be
`undefined` (`none`) when the key or argument node carries no `.name`. -/
def getPropertyName : Option Node → Option String
  | none => some "unknown"
  | some p =>
    match keyOfNode p with
    | some k => nameOfNode k
    | none =>
      match argOfNode p with
      | some a => nameOfNode a
      | none =>
        match p with
        | .identifier n _ => some n
        | _ => some "unknown"

mutual

/-- Behaviour of the external `escodegen.generate(node, format.quotes =
double)` serializer on the expression shapes that can appear as default
values in the modelled universe (literals, identifiers, object and array
literals; `otherExpr` carries its own serialization).  Pattern and type nodes
never reach this serializer from the modelled code. -/
def generate : Node → String
  | .literal (.numL n) => toString n
  | .literal (.strL s) => "\"" ++ s ++ "\""
  | .literal (.boolL b) => if b then "true" else "false"
  | .literal .nullL => "null"
  | .identifier n _ => n
  | .objectExpr props =>
    match props with
    | [] => "\x7b\x7d"
    | _ => "\x7b " ++ String.intercalate ", " (generateProps props) ++ " \x7d"
  | .arrayExpr elems => "[" ++ String.intercalate ", " (generateElems elems) ++ "]"
  | .otherExpr src => src
  | _ => ""

/-- Serialization of an object literal's property list. -/
def generateProps : List Node → List String
  | [] => []
  | .property k v _ :: rest =>
    (jsStr (nameOfNode k) ++ ": " ++ generate v) :: generateProps rest
  | _ :: rest => generateProps rest

/-- Serialization of an array literal's element list. -/
def generateElems : List (Option Node) → List String
  | [] => []
  | some e :: rest => generate e :: generateElems rest
  | none :: rest => "" :: generateElems rest

end

/-- The normalized Parameter value produced by extraction.  JS object fields
that a given construction site leaves absent are modelled as `false` / `none`
(the code only ever tests them for truthiness). -/
inductive Parameter where
  | mk (name : Option String) (type : String) (isRest : Bool) (hasDefault : Bool)
       (optional : Bool) (isParamProperty : Bool) (defaultValue : Option String)
       (properties : Option (List Parameter))
       (elements : Option (List (Option Parameter)))
deriving Repr

/-- Projection: display name. -/
def Parameter.name : Parameter → Option String
  | .mk n _ _ _ _ _ _ _ _ => n

/-- Projection: display type. -/
def Parameter.type : Parameter → String
  | .mk _ t _ _ _ _ _ _ _ => t

/-- Projection: bound via a rest element. -/
def Parameter.isRest : Parameter → Bool
  | .mk _ _ r _ _ _ _ _ _ => r

/-- Projection: has a default expression. -/
def Parameter.hasDefault : Parameter → Bool
  | .mk _ _ _ d _ _ _ _ _ => d

/-- Projection: statically-typed optional parameter. -/
def Parameter.optional : Parameter → Bool
  | .mk _ _ _ _ o _ _ _ _ => o

/-- Projection: constructor parameter-property. -/
def Parameter.isParamProperty : Parameter → Bool
  | .mk _ _ _ _ _ p _ _ _ => p

/-- Projection: serialized default expression. -/
def Parameter.defaultValue : Parameter → Option String
  | .mk _ _ _ _ _ _ dv _ _ => dv

/-- Projection: nested properties of an object pattern. -/
def Parameter.properties : Parameter → Option (List Parameter)
  | .mk _ _ _ _ _ _ _ pr _ => pr

/-- Projection: positional elements of an array pattern. -/
def Parameter.elements : Parameter → Option (List (Option Parameter))
  | .mk _ _ _ _ _ _ _ _ el => el

/-- Embedding of `inferTypeFromDefault(identifierNode)` (src/param-utils.js,
lines 166-181): an explicit type annotation wins; the `identifierNode.default`
branch is dead code on acorn AST nodes (no such field exists), so the modelled
function falls through to the fallback. -/
def inferTypeFromDefault (n : Node) : String :=
  match annoOfNode n with
  | some a => getTSType a "any"
  | none => "any"

/-- Type test `valueNode.type === "ObjectPattern"`. -/
def isObjectPatNode : Node → Bool
  | .objectPat _ _ => true
  | _ => false

/-- Type test `node.type === "ObjectExpression"`. -/
def isObjectExprNode : Node → Bool
  | .objectExpr _ => true
  | _ => false

/-- Type test `valueNode.type === "ArrayPattern"`. -/
def isArrayPatNode : Node → Bool
  | .arrayPat _ _ => true
  | _ => false

/-- The property-list selection `valueNode.type === "ObjectPattern" ?
valueNode.properties : prop.value.right.properties` of src/param-utils.js,
lines 98-103 (an empty list on other shapes, unreachable under the guarding
condition). -/
def propsOfPatOrDefault (l r : Node) : List Node :=
  match l with
  | .objectPat ps _ => ps
  | _ =>
    match r with
    | .objectExpr ps => ps
    | _ => []

/-- The `valueNode.elements` read of the array-pattern branch. -/
def elemsOfArrayPat : Node → List (Option Node)
  | .arrayPat es _ => es
  | _ => []

/-- The literal-default type refinement of the property branch
(src/param-utils.js, lines 81-87): numeric, string and boolean literal
defaults refine the type, an object-literal default refines to "Object";
anything else (including a null literal, whose `typeof` is "object") leaves
the type unchanged.  Note there is no array-literal case here, unlike the
top-level `extractParam` refinement. -/
def defaultRefinedType (r : Node) (t : String) : String :=
  match r with
  | .literal (.numL _) => "number"
  | .literal (.strL _) => "string"
  | .literal (.boolL _) => "boolean"
  | .objectExpr _ => "Object"
  | _ => t

/-- Size bound for the selected property list, for termination of the
extraction recursion. -/
def sizeOf_propsOfPatOrDefault (l r : Node) :
    sizeOf (propsOfPatOrDefault l r) ≤ sizeOf l + sizeOf r := by
  cases l <;> cases r <;> simp [propsOfPatOrDefault] <;> omega

/-- Size bound for the selected element list, for termination of the
extraction recursion. -/
def sizeOf_elemsOfArrayPat (l : Node) :
    sizeOf (elemsOfArrayPat l) ≤ sizeOf l := by
  cases l <;> simp [elemsOfArrayPat] <;> omega

/-- Decreasing fact for the property-list recursion of the defaulted-value
branch, stated against the full property node. -/
def decPropsOfDefault (l r key : Node) (panno : Option Node) :
    sizeOf (propsOfPatOrDefault l r) < sizeOf (Node.property key (.assignPat l r) panno) := by
  have h := sizeOf_propsOfPatOrDefault l r
  simp
  omega

/-- Decreasing fact for the element-list recursion of the defaulted-value
branch, stated against the full property node. -/
def decElemsOfDefault (l r key : Node) (panno : Option Node) :
    sizeOf (elemsOfArrayPat l) < sizeOf (Node.property key (.assignPat l r) panno) := by
  have h := sizeOf_elemsOfArrayPat l
  simp
  omega

mutual

/-- Embedding of `extractParam(p, isTypeScript, paramIndex)` (src/param-utils.js,
lines 119-164).  `null` input yields `null`; otherwise the switch on `p.type`
is mirrored case by case, the switch default leaving the result `null`. -/
def extractParam (p : Option Node) (isTypeScript : Bool) (paramIndex : Nat) :
    Option Parameter :=
  match p with
  | none => none
  | some q =>
    match q with
    | .identifier nm anno =>
      some (.mk (some nm)
        (if isTypeScript then getTSType (.identifier nm anno) "any"
         else inferTypeFromDefault (.identifier nm anno))
        false false false false none none none)
    | .assignPat left right =>
      match extractParam (some left) isTypeScript paramIndex with
      | none => none
      | some (.mk n t r _ o pp _ pr el) =>
        let t2 :=
          match right with
          | .literal (.numL _) => "number"
          | .literal (.strL _) => "string"
          | .literal (.boolL _) => "boolean"
          | .arrayExpr _ => "Array"
          | .objectExpr _ => "Object"
          | _ => t
        some (.mk n t2 r true o pp (some (generate right)) pr el)
    | .objectPat props anno =>
      some (.mk (some ("param" ++ toString paramIndex))
        (if isTypeScript then getTSType (.objectPat props anno) "Object" else "Object")
        false false false false none
        (some (extractProps props isTypeScript)) none)
    | .arrayPat elems _ =>
      some (.mk (some ("param" ++ toString paramIndex)) "Array"
        false false false false none none
        (some (extractElems elems isTypeScript 0)))
    | .restElem argument =>
      some (.mk (some ("..." ++ jsStr (getPropertyName (some (.restElem argument)))))
        (if isTypeScript then getTSType argument "any" else "Array<any>")
        true false false false none none none)
    | .tsParamProperty parameter =>
      match extractParam (some parameter) isTypeScript paramIndex with
      | none => none
      | some (.mk n _ r d o _ dv pr el) =>
        some (.mk n (getTSType parameter "any") r d o true dv pr el)
    | _ => none
termination_by sizeOf p
decreasing_by
  all_goals simp
  all_goals omega

/-- The TypeScript type-refinement chain at the top of the property loop body
(src/param-utils.js, lines 67-75): an annotated identifier value wins, then an
annotation on a defaulted pattern's left side, then an annotation on the
property node itself, else "any"; outside TypeScript the type starts as
"any". -/
def propType0 (value : Node) (panno : Option Node) (isTypeScript : Bool) : String :=
  if isTypeScript then
    match value with
    | .identifier _ (some va) => getTSType va "any"
    | .assignPat l _ =>
      match annoOfNode l with
      | some la => getTSType la "any"
      | none =>
        match panno with
        | some pa => getTSType pa "any"
        | none => "any"
    | _ =>
      match panno with
      | some pa => getTSType pa "any"
      | none => "any"
  else "any"

/-- Loop body of `extractObjectPatternProperties` (src/param-utils.js, lines
56-115) for a single property node: `none` models the loop's `continue` on
nodes that are neither `RestElement` nor `Property`.  The match on the
property's value exposes the `AssignmentPattern` unwrapping (`valueNode =
valueNode.left`) and the branching of the source: properties are taken from
the left pattern when it is an object pattern, else from an object-literal
default's own properties; an array-pattern left otherwise yields elements;
anything else is a leaf. -/
def extractOneProp (prop : Node) (isTypeScript : Bool) : Option Parameter :=
  match prop with
  | .restElem a =>
    some (.mk (getPropertyName (some (.restElem a))) "Object"
      true false false false none none none)
  | .property key value panno =>
    let propName := getPropertyName (some (.property key value panno))
    let type0 := propType0 value panno isTypeScript
    match value with
    | .assignPat l r =>
      let dv := generate r
      let dvField : Option String := if dv = "" then none else some dv
      let t1 : String := defaultRefinedType r type0
      if isObjectPatNode l || isObjectExprNode r then
        some (.mk propName "Object" false true false false dvField
          (some (extractProps (propsOfPatOrDefault l r) isTypeScript)) none)
      else if isArrayPatNode l then
        some (.mk propName "Array" false true false false dvField none
          (some (extractElems (elemsOfArrayPat l) isTypeScript 0)))
      else
        some (.mk propName t1 false true false false dvField none none)
    | .objectPat ps _ =>
      some (.mk propName "Object" false false false false none
        (some (extractProps ps isTypeScript)) none)
    | .arrayPat es _ =>
      some (.mk propName "Array" false false false false none none
        (some (extractElems es isTypeScript 0)))
    | _ =>
      some (.mk propName type0 false false false false none none none)
  | _ => none
termination_by sizeOf prop
decreasing_by
  all_goals first
    | apply decPropsOfDefault
    | apply decElemsOfDefault
    | (simp
       omega)

/-- The `for (const prop of properties)` loop of
`extractObjectPatternProperties`, pushing each non-skipped property. -/
def extractProps (props : List Node) (isTypeScript : Bool) : List Parameter :=
  match props with
  | [] => []
  | prop :: rest =>
    match extractOneProp prop isTypeScript with
    | some pr => pr :: extractProps rest isTypeScript
    | none => extractProps rest isTypeScript
termination_by sizeOf props
decreasing_by
  all_goals simp
  all_goals omega

/-- The `elements.map((e, i) => extractParam(e, isTypeScript, i))` of the
array-pattern branches, with the JS map index made explicit. -/
def extractElems (elems : List (Option Node)) (isTypeScript : Bool) (i : Nat) :
    List (Option Parameter) :=
  match elems with
  | [] => []
  | e :: rest => extractParam e isTypeScript i :: extractElems rest isTypeScript (i + 1)
termination_by sizeOf elems
decreasing_by
  all_goals simp
  all_goals omega

end

/-- Embedding of `extractObjectPatternProperties(properties, isTypeScript,
_parentName)` (src/param-utils.js, lines 53-117): a missing property list
yields the empty result, otherwise the loop over the properties runs; the
third argument is unused in the source as well. -/
def extractObjectPatternProperties (properties : Option (List Node))
    (isTypeScript : Bool) (_parentName : String) : List Parameter :=
  match properties with
  | none => []
  | some ps => extractProps ps isTypeScript

/-- Statements, as far as the return-statement walk observes them: a return
statement with an optional argument, and any other statement kind abstracted
to the list of statements nested below it (acorn-walk's `walk.simple` visits
every node). -/
inductive Stmt where
  | retS (argument : Option Node)
  | blockS (stmts : List Stmt)
  | otherS (children : List Stmt)
deriving Repr

/-- A function body: a `BlockStatement` with its statement list, or a concise
arrow-function expression body. -/
inductive FnBody where
  | blockB (stmts : List Stmt)
  | exprB (e : Node)
deriving Repr

mutual

/-- Does the `walk.simple` over a statement find a `ReturnStatement` whose
`argument` is present (src/param-utils.js, lines 379-386)? -/
def stmtHasRet : Stmt → Bool
  | .retS (some _) => true
  | .retS none => false
  | .blockS ss => stmtsHasRet ss
  | .otherS ss => stmtsHasRet ss

/-- List worker for `stmtHasRet`. -/
def stmtsHasRet : List Stmt → Bool
  | [] => false
  | s :: rest => stmtHasRet s || stmtsHasRet rest

end

/-- The return-statement walk over a whole function body: a concise arrow
expression body contains no return statements in the modelled universe. -/
def bodyHasRet : FnBody → Bool
  | .blockB ss => stmtsHasRet ss
  | .exprB _ => false

/-- The `.value` property of a method-definition node: the source only ever
reads `node.value.params`. -/
structure MethodValue where
  params : Option (List Node)
deriving Repr

/-- A function-like AST node, with exactly the properties the modelled code
reads: `params`, `value` (method definitions), `body`, the
arrow-function-expression type test, `id`, `returnType`, and the `async` /
`generator` flags (present on real nodes, read by no modelled function). -/
structure FunctionNode where
  params : Option (List Node)
  value : Option MethodValue
  body : Option FnBody
  isArrow : Bool
  id : Option Node
  returnType : Option Node
  isAsync : Bool
  isGenerator : Bool
deriving Repr

/-- The truthiness test `extracted.name && extracted.name.startsWith("param")`
of src/param-utils.js line 194 (an undefined or empty name is falsy). -/
def startsWithParam (pr : Parameter) : Bool :=
  match pr.name with
  | some s => jsStartsWith s "param"
  | none => false

/-- The `for (const p of paramNodes)` loop of `extractParams`
(src/param-utils.js, lines 190-198): the synthetic-name counter `paramIndex`
is incremented after pushing any extracted parameter whose name starts with
"param". -/
def extractParamsLoop (ps : List Node) (isTypeScript : Bool) (paramIndex : Nat) :
    List Parameter :=
  match ps with
  | [] => []
  | p :: rest =>
    match extractParam (some p) isTypeScript paramIndex with
    | some pr =>
      pr :: extractParamsLoop rest isTypeScript
        (if startsWithParam pr then paramIndex + 1 else paramIndex)
    | none => extractParamsLoop rest isTypeScript paramIndex

/-- Embedding of `extractParams(node, isTypeScript)` (src/param-utils.js,
lines 183-200) for a non-null function node: `node.params ||
(node.value && node.value.params)`, then the counter loop starting at 1. -/
def extractParams (node : FunctionNode) (isTypeScript : Bool) : List Parameter :=
  match node.params with
  | some ps => extractParamsLoop ps isTypeScript 1
  | none =>
    match node.value with
    | some v =>
      match v.params with
      | some ps => extractParamsLoop ps isTypeScript 1
      | none => []
    | none => []

/-- The public entry point `extractParams` as callable from JS, where a null
node makes the `node.params` access throw a TypeError. -/
def extractParamsE (node : Option FunctionNode) (isTypeScript : Bool) :
    Except JsErr (List Parameter) :=
  match node with
  | none => .error .typeError
  | some fn => .ok (extractParams fn isTypeScript)

/-- The trailing arrow-function check of `getReturnType` (src/param-utils.js,
lines 389-391): on an arrow node the source reads `functionNode.body.type`,
which throws when the body is absent. -/
def getReturnTypeArrowCheck (fn : FunctionNode) : Except JsErr (Option String) :=
  if fn.isArrow then
    match fn.body with
    | some (.blockB _) => .ok none
    | some (.exprB _) => .ok (some "any")
    | none => .error .typeError
  else .ok none

/-- Embedding of `getReturnType(functionNode, isTypeScript)`
(src/param-utils.js, lines 373-394) for a non-null node: an explicit
TypeScript return annotation is translated first; otherwise, if the body's
walk finds any return statement carrying a value the result is the string
"any" (no classification of the returned value's shape happens, and the
`async` / `generator` flags are never consulted); otherwise the concise-arrow
check runs; otherwise `null`. -/
def getReturnType (fn : FunctionNode) (isTypeScript : Bool) :
    Except JsErr (Option String) :=
  match isTypeScript, fn.returnType with
  | true, some rt => .ok (some (getTSType rt "any"))
  | _, _ =>
    match fn.body with
    | some b => if bodyHasRet b then .ok (some "any") else getReturnTypeArrowCheck fn
    | none => getReturnTypeArrowCheck fn

/-- The public entry point `getReturnType` as callable from JS: on a null
node the very first property access throws. -/
def getReturnTypeE (node : Option FunctionNode) (isTypeScript : Bool) :
    Except JsErr (Option String) :=
  match node with
  | none => .error .typeError
  | some fn => getReturnType fn isTypeScript

/-- Truthiness of an optional string (JS: `undefined` and the empty string are
falsy). -/
def truthyStr : Option String → Bool
  | some s => s ≠ ""
  | none => false

/-- The regex test `/^param\d+$/.test(s)`. -/
def isParamNum (s : String) : Bool :=
  "param".data.isPrefixOf s.data &&
    !(s.data.drop 5).isEmpty && (s.data.drop 5).all Char.isDigit

/-- Worker for `stripParamDot`: strip a leading "param", one or more digits
and a dot, if the whole of that shape is present. -/
def stripParamDotCore (cs : List Char) : List Char :=
  if "param".data.isPrefixOf cs then
    let rest := cs.drop 5
    let ds := rest.takeWhile Char.isDigit
    if !ds.isEmpty && ['.'].isPrefixOf (rest.drop ds.length) then
      rest.drop (ds.length + 1)
    else cs
  else cs

/-- The JS `s.replace(/^param\d+\./, "")`: remove one leading synthetic-name
prefix "param<digits>." when present. -/
def stripParamDot (s : String) : String :=
  ⟨stripParamDotCore s.data⟩

/-- The JS first character class `[a-zA-Z_$]` of the identifier regex. -/
def isIdentStart (c : Char) : Bool :=
  c.isAlpha || c = '_' || c = '$'

/-- The JS tail character class `[a-zA-Z0-9_$]` of the identifier regex. -/
def isIdentChar (c : Char) : Bool :=
  c.isAlpha || c.isDigit || c = '_' || c = '$'

/-- The renderer's `isValidIdentifier` (src/param-utils.js, line 321): a
truthy string, not the literal text "undefined", matching
`/^[a-zA-Z_$][a-zA-Z0-9_$]*$/`. -/
def isValidIdentifier (s : String) : Bool :=
  s ≠ "" && s ≠ "undefined" &&
    (match s.data with
     | [] => false
     | c :: cs => isIdentStart c && cs.all isIdentChar)

/-- The renderer's `pad(str, len)` (src/param-utils.js, line 253): append
`Math.max(0, len - str.length)` spaces (Nat subtraction models the `max`). -/
def pad (str : String) (len : Nat) : String :=
  str ++ String.mk (List.replicate (len - str.length) ' ')

mutual

/-- The renderer's first pass `collectNamesAndTypes(param, parentName)`
(src/param-utils.js, lines 234-244): returns the pushed display names (which
can be the raw, possibly-undefined `param.name` at top level) and the pushed
types, in push order; children of an undefined-named parameter restart from
the empty parent path. -/
def collectNamesAndTypes (param : Parameter) (parentName : String) :
    List (Option String) × List String :=
  match param with
  | .mk pname ptype _ _ _ _ _ pprops pelems =>
    let nameStr : Option String :=
      if parentName ≠ "" then some (parentName ++ "." ++ jsStr pname) else pname
    let childParent : String :=
      match nameStr with
      | some s => s
      | none => ""
    let fromProps :=
      match pprops with
      | some ps => collectNTList ps childParent
      | none => ([], [])
    let fromElems :=
      match pelems with
      | some es => collectNTOptList es childParent
      | none => ([], [])
    (nameStr :: (fromProps.1 ++ fromElems.1), ptype :: (fromProps.2 ++ fromElems.2))

/-- The `forEach` over a property list in `collectNamesAndTypes`. -/
def collectNTList (ps : List Parameter) (parentName : String) :
    List (Option String) × List String :=
  match ps with
  | [] => ([], [])
  | p :: rest =>
    let h := collectNamesAndTypes p parentName
    let t := collectNTList rest parentName
    (h.1 ++ t.1, h.2 ++ t.2)

/-- The `forEach` over an element list in `collectNamesAndTypes` (null
elements are skipped). -/
def collectNTOptList (es : List (Option Parameter)) (parentName : String) :
    List (Option String) × List String :=
  match es with
  | [] => ([], [])
  | some p :: rest =>
    let h := collectNamesAndTypes p parentName
    let t := collectNTOptList rest parentName
    (h.1 ++ t.1, h.2 ++ t.2)
  | none :: rest => collectNTOptList rest parentName

end

/-- The `kind` argument of `docForParam`: the strings "param" and "property"
of the source. -/
inductive DocKind where
  | param
  | property
deriving DecidableEq, Repr

mutual

/-- The renderer's `docForParam(param, parentName, kind, isArrayElement)`
(src/param-utils.js, lines 256-310), returning the lines it pushes onto
`paramDocs` in order.  The source reads `param.name` raw in the final
name-computation branch, where an undefined top-level name would throw (and be
converted to an empty render by the entry point's catch); such a name is
unreachable from `extractParams` output, and is modelled by `jsStr`
interpolation. -/
def docForParam (maxTypeLen maxNameLen : Nat) (param : Parameter)
    (parentName : String) (kind : DocKind) (isArrayElement : Bool) :
    List String :=
  match param with
  | .mk pname ptype pisRest phasDefault popt pisPP pdv pprops pelems =>
    let typeStr := ptype
    let nameStr : String :=
      if isArrayElement && truthyStr pname then jsStr pname
      else if kind = .property && parentName ≠ "" && truthyStr pname then
        stripParamDot (parentName ++ "." ++ jsStr pname)
      else
        stripParamDot
          (if parentName ≠ "" then parentName ++ "." ++ jsStr pname else jsStr pname)
    if isParamNum nameStr then
      (match pprops with
       | some ps => docForList maxTypeLen maxNameLen ps nameStr .property false
       | none => []) ++
      (match pelems with
       | some es => docForOptList maxTypeLen maxNameLen es nameStr kind true
       | none => [])
    else
      let doc :=
        if isArrayElement && pisRest && (typeStr = "Array" || typeStr = "Array<any>") then
          "@param \x7bArray\x7d ..." ++ jsReplaceFirst (jsStr pname) "..." "" ++
            " - Rest parameter"
        else if isArrayElement then
          if phasDefault then
            "@param \x7b" ++ typeStr ++ "\x7d " ++ pad nameStr maxNameLen ++
              " - Default value: `" ++ jsStr pdv ++ "`. - Parameter '" ++ jsStr pname ++ "'"
          else
            "@param \x7b" ++ typeStr ++ "\x7d " ++ pad nameStr maxNameLen ++
              " - Parameter '" ++ jsStr pname ++ "'"
        else if phasDefault then
          if kind = .property then
            "@param \x7b" ++ typeStr ++ "\x7d " ++ pad nameStr maxNameLen ++
              " - Default value: `" ++ jsStr pdv ++ "`. - Property '" ++ jsStr pname ++ "'"
          else
            "@param \x7b" ++ pad typeStr maxTypeLen ++ "\x7d [" ++ pad nameStr maxNameLen ++
              "=" ++ jsStr pdv ++ "] - Parameter '" ++ nameStr ++ "'"
        else if pisRest then
          "@param \x7b..." ++
            jsReplaceFirst (jsReplaceFirst typeStr "Array<" "") ">" "" ++ "\x7d " ++
            jsReplaceFirst nameStr "..." "" ++ " - Rest parameter"
        else
          if kind = .property then
            "@param \x7b" ++ typeStr ++ "\x7d " ++ pad nameStr maxNameLen ++
              " - Property '" ++ jsStr pname ++ "'"
          else
            "@param \x7b" ++ pad typeStr maxTypeLen ++ "\x7d " ++ pad nameStr maxNameLen ++
              " - Parameter '" ++ nameStr ++ "'"
      let doc := if typeStr = "any" then doc ++ " (Type could not be inferred)" else doc
      doc ::
        ((match pprops with
          | some ps => docForList maxTypeLen maxNameLen ps nameStr .property false
          | none => []) ++
         (match pelems with
          | some es => docForOptList maxTypeLen maxNameLen es nameStr kind true
          | none => []))

/-- The `properties.forEach(p => docForParam(p, nameStr, "property"))`
recursion. -/
def docForList (maxTypeLen maxNameLen : Nat) (ps : List Parameter)
    (parentName : String) (kind : DocKind) (isArrayElement : Bool) :
    List String :=
  match ps with
  | [] => []
  | p :: rest =>
    docForParam maxTypeLen maxNameLen p parentName kind isArrayElement ++
      docForList maxTypeLen maxNameLen rest parentName kind isArrayElement

/-- The `elements.forEach(e => { if (e) docForParam(e, nameStr, kind, true) })`
recursion (null elements are skipped). -/
def docForOptList (maxTypeLen maxNameLen : Nat) (es : List (Option Parameter))
    (parentName : String) (kind : DocKind) (isArrayElement : Bool) :
    List String :=
  match es with
  | [] => []
  | some p :: rest =>
    docForParam maxTypeLen maxNameLen p parentName kind isArrayElement ++
      docForOptList maxTypeLen maxNameLen rest parentName kind isArrayElement
  | none :: rest => docForOptList maxTypeLen maxNameLen rest parentName kind isArrayElement

end

/-- The options bag read by the renderer: `options.isTypeScript` and
`options.example` (the latter field is called `exampleFlag` here because
`example` is a Lean keyword). -/
structure RenderOptions where
  isTypeScript : Bool
  exampleFlag : Bool
deriving Repr

/-- The resolution `let functionName = functionNameArg; if (!functionName)
functionName = functionNode.id ? functionNode.id.name : "anonymous"`
(src/param-utils.js, lines 323-326).  A present but empty argument is falsy;
`functionNode.id.name` can itself be undefined. -/
def functionNameResolved (fnNameArg : Option String) (fn : FunctionNode) :
    Option String :=
  let fromId : Option String :=
    match fn.id with
    | some idn => nameOfNode idn
    | none => some "anonymous"
  match fnNameArg with
  | some s => if s = "" then fromId else some s
  | none => fromId

/-- JS `Array.prototype.join` stringification of one entry: `undefined`
joins as the empty string (unlike template interpolation). -/
def jsJoinStr : Option String → String
  | some s => s
  | none => ""

/-- The smart-summary computation (src/param-utils.js, lines 320-346). -/
def summaryLine (params : List Parameter) (functionName : Option String) :
    String :=
  let paramNames := params.map Parameter.name
  let hasValidNames :=
    decide (0 < params.length) &&
      paramNames.all (fun p => isValidIdentifier (jsTrim (jsStr p)))
  if hasValidNames then
    let named : Bool :=
      match functionName with
      | some s => s ≠ "" && s ≠ "anonymous"
      | none => false
    if named then
      match paramNames with
      | [n] => "Function " ++ jsStr functionName ++ " with parameter '" ++ jsStr n ++ "'"
      | _ =>
        "Function " ++ jsStr functionName ++ " with parameters '" ++
          String.intercalate "', '" (paramNames.map jsJoinStr) ++ "'"
    else
      match paramNames with
      | [n] => "Function with parameter '" ++ jsStr n ++ "'"
      | _ =>
        "Function with parameters '" ++
          String.intercalate "', '" (paramNames.map jsJoinStr) ++ "'"
  else "TODO: Describe what this function does (auto-generated)"

/-- The `@example` call synthesis (src/param-utils.js, lines 352-355):
each argument is the parameter's name or the placeholder "value" when that
name is falsy. -/
def exampleCall (paramNames : List (Option String)) (functionName : Option String) :
    String :=
  let args :=
    String.intercalate ", "
      (paramNames.map (fun n => if truthyStr n then jsStr n else "value"))
  let named : Bool :=
    match functionName with
    | some s => s ≠ "" && s ≠ "anonymous"
    | none => false
  if named then jsStr functionName ++ "(" ++ args ++ ")"
  else "function(" ++ args ++ ")"

/-- The body of the `try` block of `generateParamDocs(functionNode, options,
functionNameArg)` (src/param-utils.js, lines 223-363) for a non-null node:
extraction, the alignment pass, per-parameter rendering, the return tag, the
summary, the optional example block and the final JSDoc assembly.  The only
modelled error source is `getReturnType`'s body access on a body-less arrow
node; a propagated error is turned into the empty string by the catch in
`generateParamDocs`. -/
def generateParamDocsBody (fn : FunctionNode) (opts : RenderOptions)
    (fnNameArg : Option String) : Except JsErr String :=
  let params := extractParams fn opts.isTypeScript
  let collected := collectNTList params ""
  let filteredNames := collected.1.filter truthyStr
  let filteredTypes := collected.2.filter (fun t => t ≠ "")
  let maxTypeLen := filteredTypes.foldl (fun mx t => max mx t.length) 0
  let maxNameLen := filteredNames.foldl (fun mx n => max mx (jsStr n).length) 0
  let paramLines := docForList maxTypeLen maxNameLen params "" .param false
  match getReturnType fn opts.isTypeScript with
  | .error e => .error e
  | .ok rtOpt =>
    let paramDocs :=
      match rtOpt with
      | some rt =>
        if rt = "" then paramLines
        else
          (if paramLines.isEmpty then paramLines else paramLines ++ [""]) ++
            ["@returns \x7b" ++ rt ++ "\x7d - The return value"]
      | none => paramLines
    let paramNames := params.map Parameter.name
    let functionName := functionNameResolved fnNameArg fn
    let doc := "/**\n" ++ " * @summary " ++ summaryLine params functionName ++ "\n"
    let doc :=
      if opts.exampleFlag then
        doc ++ " * @example\n * " ++ exampleCall paramNames functionName ++ "\n"
      else doc
    let doc :=
      if paramDocs.isEmpty then doc
      else
        doc ++ " * \n" ++
          String.intercalate "\n" (paramDocs.map (fun l => " * " ++ l)) ++ "\n"
    .ok (doc ++ " */")

/-- Embedding of the public entry point `generateParamDocs` (src/param-utils.js,
lines 221-367): a null node returns the empty string from inside the `try`,
and any exception raised by the pipeline is caught and converted to the empty
string. -/
def generateParamDocs (node : Option FunctionNode) (opts : RenderOptions)
    (fnNameArg : Option String) : String :=
  match node with
  | none => ""
  | some fn =>
    match generateParamDocsBody fn opts fnNameArg with
    | .ok s => s
    | .error _ => ""

/-- Embedding of the public entry point `generateFunctionComment(node, code,
functionName, options)` (src/param-utils.js, lines 396-403) as callable from
JS: the unguarded `extractParams(node, ...)` call throws on a null node
(there is no `try` in this function); otherwise an empty render is replaced
by the fixed TODO fallback comment. -/
def generateFunctionCommentE (node : Option FunctionNode) (_code : String)
    (functionName : String) (opts : RenderOptions) : Except JsErr String :=
  match extractParamsE node opts.isTypeScript with
  | .error e => .error e
  | .ok _ =>
    let doc := generateParamDocs node opts (some functionName)
    if doc = "" then
      .ok "/** TODO: Parsing failed for this function. Please check manually. */"
    else .ok doc

/-- Does a physical line contain a block-comment opener
(`lines[j].includes("/**") || lines[j].includes("/*")`)? -/
def containsOpenComment (l : String) : Bool :=
  jsIncludes l "/**" || jsIncludes l "/*"

/-- The upward scan of `hasComment` (src/processor.js, lines 425-432), from
physical line index `j` (0-based) down to 0: a line containing an opener
reports a comment; a blank line stops the scan; falling off the top reports
none. -/
def scanUp (lines : List String) : Nat → Bool
  | 0 => containsOpenComment (lines.getD 0 "")
  | j + 1 =>
    let l := lines.getD (j + 1) ""
    if containsOpenComment l then true
    else if jsTrim l = "" then false
    else scanUp lines j

/-- Embedding of the line-rule of `hasComment(node, code)` (src/processor.js,
lines 407-435) on the split line list, `startLine1` being the node's 1-based
start line.  A node starting on the first line has no line above (the JS
index is negative); out-of-range accesses (impossible for nodes of the parsed
source) are modelled by the empty line. -/
def hasCommentL (lines : List String) (startLine1 : Nat) : Bool :=
  if startLine1 < 2 then false
  else
    let i := startLine1 - 2
    let line := lines.getD i ""
    if jsTrim line = "" then false
    else if jsStartsWith (jsTrim line) "//" then true
    else if jsEndsWith (jsTrim line) "*/" then scanUp lines i
    else false

/-- The `.loc.start` position object of a located AST node. -/
structure LocStart where
  line : Nat
deriving Repr

/-- The `.loc` object of a located AST node. -/
structure SrcLoc where
  start : Option LocStart
deriving Repr

/-- A node as observed by `hasComment`: only its optional location is read. -/
structure LocatedNode where
  loc : Option SrcLoc
deriving Repr

/-- Embedding of `hasComment(node, code)` (src/processor.js, lines 407-435):
guard the three property accesses, split the code on newlines, then apply the
line rule. -/
def hasComment (node : Option LocatedNode) (code : String) : Bool :=
  match node with
  | none => false
  | some n =>
    match n.loc with
    | none => false
    | some l =>
      match l.start with
      | none => false
      | some st => hasCommentL (code.splitOn "\n") st.line

/-- Option-valued all-quantifier over an extraction result. -/
def optAll (q : Parameter → Bool) : Option Parameter → Bool
  | some pr => q pr
  | none => true

mutual

/-- Deep conjunction of a per-parameter check over a Parameter and everything
nested below it. -/
def paramDeepAll (q : Parameter → Bool) (p : Parameter) : Bool :=
  match p with
  | .mk n t r d o ip dv pprops pelems =>
    q (.mk n t r d o ip dv pprops pelems) &&
      (match pprops with
       | some l => paramsDeepAll q l
       | none => true) &&
      (match pelems with
       | some l => optParamsDeepAll q l
       | none => true)

/-- List worker for `paramDeepAll`. -/
def paramsDeepAll (q : Parameter → Bool) : List Parameter → Bool
  | [] => true
  | p :: rest => paramDeepAll q p && paramsDeepAll q rest

/-- Optional-list worker for `paramDeepAll`. -/
def optParamsDeepAll (q : Parameter → Bool) : List (Option Parameter) → Bool
  | [] => true
  | some p :: rest => paramDeepAll q p && optParamsDeepAll q rest
  | none :: rest => optParamsDeepAll q rest

end

/-- The claim-C6 invariant on one Parameter: `properties` and `elements` are
never both set. -/
def noBothPropsElems (p : Parameter) : Bool :=
  !(p.properties.isSome && p.elements.isSome)

/-- The claim-C7 invariant on one Parameter: a rest parameter never carries a
default. -/
def noRestWithDefault (p : Parameter) : Bool :=
  !(p.isRest && p.hasDefault)

/-- Is this pattern, after peeling defaulted and parameter-property wrappers,
a rest element?  `extractParam` marks exactly these results `isRest`. -/
def isRestCore : Node → Bool
  | .restElem _ => true
  | .tsParamProperty p => isRestCore p
  | .assignPat l _ => isRestCore l
  | _ => false

mutual

/-- Grammar well-formedness used by claim C7: real parsers never produce an
`AssignmentPattern` whose left side peels to a rest element (a rest parameter
cannot be defaulted in JS), at any nesting depth. -/
def wfNode : Node → Bool
  | .assignPat l r => !isRestCore l && wfNode l && wfNode r
  | .objectPat ps _ => wfNodeList ps
  | .arrayPat es _ => wfOptNodeList es
  | .restElem a => wfNode a
  | .tsParamProperty p => wfNode p
  | .property _ v _ => wfNode v
  | .objectExpr ps => wfNodeList ps
  | .arrayExpr es => wfOptNodeList es
  | _ => true

/-- List worker for `wfNode`. -/
def wfNodeList : List Node → Bool
  | [] => true
  | p :: rest => wfNode p && wfNodeList rest

/-- Optional-list worker for `wfNode`. -/
def wfOptNodeList : List (Option Node) → Bool
  | [] => true
  | some p :: rest => wfNode p && wfOptNodeList rest
  | none :: rest => wfOptNodeList rest

end

/-- Is a parameter node a top-level object/array destructuring pattern (the
kinds the spec says the synthetic counter counts)? -/
def isDestructuringTop : Node → Bool
  | .objectPat _ _ => true
  | .arrayPat _ _ => true
  | _ => false

/-- The synthetic names "param<st>", "param<st+1>", ... of length `k`. -/
def expectedSyntheticNames : Nat → Nat → List String
  | _, 0 => []
  | st, k + 1 => ("param" ++ toString st) :: expectedSyntheticNames (st + 1) k

/-- A function node with the given async/generator flags and everything else
unchanged (used to state that return inference ignores those flags). -/
def setAsyncGenerator (fn : FunctionNode) (a g : Bool) : FunctionNode :=
  FunctionNode.mk fn.params fn.value fn.body fn.isArrow fn.id fn.returnType a g

/-- The function node of `function f() { return 5; }`: no parameters, no
type annotation, a block body with a single valued return. -/
def returnFiveNode : FunctionNode :=
  FunctionNode.mk (some []) none
    (some (.blockB [Stmt.retS (some (.literal (.numL 5)))]))
    false (some (.identifier "f" none)) none false false

/-- The parameter list of `function f(paramFoo, {}) {}`: a simple identifier
whose own name starts with "param", followed by a destructured parameter. -/
def paramFooNode : FunctionNode :=
  FunctionNode.mk (some [Node.identifier "paramFoo" none, Node.objectPat [] none])
    none (some (.blockB [])) false (some (.identifier "f" none)) none false false

/-- The function node of `function test({ a = 1, b = "x" }) {}` (the claim-C8
scenario). -/
def testDefaultsNode : FunctionNode :=
  FunctionNode.mk
    (some [Node.objectPat
      [Node.property (.identifier "a" none)
         (.assignPat (.identifier "a" none) (.literal (.numL 1))) none,
       Node.property (.identifier "b" none)
         (.assignPat (.identifier "b" none) (.literal (.strL "x"))) none] none])
    none (some (.blockB [])) false (some (.identifier "test" none)) none false false

/-- The function node of `function g(...args) {}`. -/
def restArgsNode : FunctionNode :=
  FunctionNode.mk (some [Node.restElem (.identifier "args" none)])
    none (some (.blockB [])) false (some (.identifier "g" none)) none false false

/-- A function node with no parameters and no body whose type is
ArrowFunctionExpression: the one shape on which the return inferrer itself
throws (`functionNode.body.type` on an absent body). -/
def arrowNoBodyNode : FunctionNode :=
  FunctionNode.mk none none none true none none false false

/-- Truthiness of an optional single node used as a well-formedness carrier. -/
def wfOptNode : Option Node → Bool
  | some q => wfNode q
  | none => true

/-- The explicit list recursion of `getTSTypeList` agrees with `.map`. -/
theorem getTSTypeList_eq_map (ts : List Node) (d : String) :
    getTSTypeList ts d = ts.map (fun t => getTSType t d) := by
  induction ts with
  | nil => simp [getTSTypeList]
  | cons t rest ih => simp [getTSTypeList, ih]

/-- A string starts with any of its own prefixes. -/
theorem jsStartsWith_append_left (p s : String) : jsStartsWith (p ++ s) p = true := by
  simp [jsStartsWith, String.data_append, List.isPrefixOf_iff_prefix]

/-- Replacing the first occurrence of a non-empty pattern that sits at the
very front deletes exactly that front copy. -/
theorem replaceFirstCore_self (pat s : List Char) (h : pat ≠ []) :
    replaceFirstCore pat [] (pat ++ s) = s := by
  match pat, h with
  | c :: cs, _ =>
    show replaceFirstCore (c :: cs) [] (c :: (cs ++ s)) = s
    rw [replaceFirstCore]
    simp [List.isPrefixOf_iff_prefix]

/-- Character-list form of a string with the "..." marker glued in front. -/
theorem data_dots_append (x : String) :
    ("..." ++ x).data = '.' :: '.' :: '.' :: x.data := by
  rw [String.data_append]
  rfl

/-- Stripping the first "..." from a string that begins with the marker
recovers the bare string. -/
theorem jsReplaceFirst_strip_dots (x : String) :
    jsReplaceFirst ("..." ++ x) "..." "" = x := by
  show String.mk (replaceFirstCore "...".data "".data ("..." ++ x).data) = x
  rw [String.data_append]
  rw [show ("".data : List Char) = [] from rfl]
  rw [replaceFirstCore_self _ _ (by decide)]

/-- A string that begins with the "..." marker never matches the synthetic
name regex `/^param\d+$/`. -/
theorem isParamNum_dots (x : String) : isParamNum ("..." ++ x) = false := by
  simp [isParamNum, data_dots_append, List.isPrefixOf]

/-- A string that begins with the "..." marker is unchanged by the
`/^param\d+\./` strip. -/
theorem stripParamDot_dots (x : String) :
    stripParamDot ("..." ++ x) = "..." ++ x := by
  show String.mk (stripParamDotCore ("..." ++ x).data) = "..." ++ x
  rw [data_dots_append, stripParamDotCore]
  simp [List.isPrefixOf]
  rw [← data_dots_append]

/-- Claim C5 (counterexample): the claim says primitive keyword nodes map to
their keyword names among string/number/boolean/void/any/unknown, but the
source's switch has no `TSUnknownKeyword` case: an `unknown` keyword node
falls through to the fallback "any" instead of mapping to "unknown". -/
theorem c5_counterexample :
    getTSType Node.tsUnknownKeyword "any" = "any" ∧
    getTSType Node.tsUnknownKeyword "any" ≠ "unknown" := by
  have h : getTSType Node.tsUnknownKeyword "any" = "any" := by
    simp [getTSType, annoOfNode]
  exact ⟨h, by rw [h]; decide⟩

/-- Claim C5 (amended): `getTSType` maps the string/number/boolean/void/any
keyword nodes to their keyword names, but sends the `unknown` keyword node to
the fallback (there is no case for it); an array type becomes `Array<` plus
the recursively inferred element type plus `>`; union members are joined with
" | " and intersection members with " & "; a literal type yields the runtime
type of its literal value (fallback when the value is absent); every
unrecognized shape yields the fallback, and the function is total by
construction. -/
theorem c5_getTSType_amended :
    (∀ d, getTSType .tsStringKeyword d = "string") ∧
    (∀ d, getTSType .tsNumberKeyword d = "number") ∧
    (∀ d, getTSType .tsBooleanKeyword d = "boolean") ∧
    (∀ d, getTSType .tsVoidKeyword d = "void") ∧
    (∀ d, getTSType .tsAnyKeyword d = "any") ∧
    (∀ d, getTSType .tsUnknownKeyword d = d) ∧
    (∀ e d, getTSType (.tsArrayType e) d = "Array<" ++ getTSType e "any" ++ ">") ∧
    (∀ ts d, getTSType (.tsUnionType ts) d =
      String.intercalate " | " (ts.map (fun t => getTSType t d))) ∧
    (∀ ts d, getTSType (.tsIntersectionType ts) d =
      String.intercalate " & " (ts.map (fun t => getTSType t d))) ∧
    (∀ v d, getTSType (.tsLiteralType (some (.literal v))) d = typeofLit v) ∧
    (∀ d, getTSType (.tsLiteralType none) d = d) ∧
    (∀ d, getTSType .tsOtherType d = d) := by
  refine ⟨?_, ?_, ?_, ?_, ?_, ?_, ?_, ?_, ?_, ?_, ?_, ?_⟩ <;>
    intros <;>
    first
      | simp [getTSType, annoOfNode, getTSTypeList_eq_map, valueOfNode]
      | (rw [getTSType.eq_def]; simp [annoOfNode, getTSTypeList_eq_map])

/-- Claim C1 (counterexample): on the untyped function
`function f() { return 5; }` the source's `getReturnType` returns the string
"any", not "number" as the claim's first-returned-value classification rule
would require. -/
theorem c1_counterexample :
    getReturnType returnFiveNode false = .ok (some "any") ∧
    ("any" : String) ≠ "number" := by
  have h : getReturnType returnFiveNode false = .ok (some "any") := by
    simp [getReturnType, returnFiveNode, bodyHasRet, stmtsHasRet, stmtHasRet]
  exact ⟨h, by decide⟩

/-- Claim C1 (amended): when a function has no TypeScript return annotation in
play, `getReturnType` yields exactly the string "any" whenever the body's walk
finds any return statement carrying a value, with no classification of the
returned value's syntactic shape; and the result never depends on the `async`
or `generator` flags, so no `Promise<T>` or `Iterator<T>` wrapping occurs. -/
theorem c1_return_any_amended :
    (∀ (fn : FunctionNode) (b : FnBody), fn.returnType = none → fn.body = some b →
      bodyHasRet b = true → getReturnType fn false = .ok (some "any")) ∧
    (∀ (fn : FunctionNode) (a g ts : Bool),
      getReturnType (setAsyncGenerator fn a g) ts = getReturnType fn ts) := by
  constructor
  · intro fn b hrt hb hret
    simp [getReturnType, hrt, hb, hret]
  · intro fn a g ts
    obtain ⟨p, v, b, arr, idn, rt, a0, g0⟩ := fn
    cases ts <;> cases rt <;>
      simp [getReturnType, setAsyncGenerator, getReturnTypeArrowCheck]

/-- Claim C1 (witness): the amended rule applied to
`function f() { return 5; }`. -/
theorem c1_witness :
    getReturnType returnFiveNode false = .ok (some "any") :=
  c1_return_any_amended.1 returnFiveNode _ rfl rfl
    (by simp [bodyHasRet, stmtsHasRet, stmtHasRet])

/-- Claim C9: rendering is deterministic — two invocations of
`generateParamDocs` on identical function node, options bag and name argument
produce byte-identical output strings (the embedding is a pure function of
its inputs: no timestamp, randomness or hidden state exists in the source
pipeline). -/
theorem c9_render_deterministic :
    ∀ (n n' : Option FunctionNode) (o o' : RenderOptions) (f f' : Option String),
      n = n' → o = o' → f = f' →
      generateParamDocs n o f = generateParamDocs n' o' f' := by
  intro n n' o o' f f' h1 h2 h3
  rw [h1, h2, h3]

/-- Claim C9 (witness): determinism at a concrete invocation. -/
theorem c9_witness :
    generateParamDocs (some returnFiveNode) (RenderOptions.mk false false) none =
      generateParamDocs (some returnFiveNode) (RenderOptions.mk false false) none :=
  c9_render_deterministic _ _ _ _ _ _ rfl rfl rfl

/-- Claim C8: extraction of the single parameter of
`function test({ a = 1, b = "x" }) {}` yields exactly one top-level Parameter
named "param1" of type Object whose properties are the two leaves, in source
order: "a" of type "number" with default rendered "1", and "b" of type
"string" with default rendered "\"x\"" (both leaves carry hasDefault and have
no nested properties or elements). -/
theorem c8_default_object_extraction :
    extractParams testDefaultsNode false =
      [Parameter.mk (some "param1") "Object" false false false false none
        (some [Parameter.mk (some "a") "number" false true false false (some "1") none none,
               Parameter.mk (some "b") "string" false true false false (some "\"x\"") none none])
        none] := by
  simp [extractParams, extractParamsLoop, extractParam, extractProps, extractOneProp,
    getPropertyName, keyOfNode, argOfNode, nameOfNode, generate, jsStr, testDefaultsNode,
    startsWithParam, jsStartsWith, propType0, defaultRefinedType, isObjectPatNode,
    isObjectExprNode, isArrayPatNode, propsOfPatOrDefault, elemsOfArrayPat, annoOfNode]
  decide

/-- Projection computation for the name field. -/
theorem Parameter.name_mk (n : Option String) (t : String) (r d o ip : Bool)
    (dv : Option String) (pr : Option (List Parameter))
    (el : Option (List (Option Parameter))) :
    (Parameter.mk n t r d o ip dv pr el).name = n := rfl

/-- An object pattern is counted as a destructuring parameter. -/
theorem isDestructuringTop_objectPat (props : List Node) (anno : Option Node) :
    isDestructuringTop (.objectPat props anno) = true := rfl

/-- An array pattern is counted as a destructuring parameter. -/
theorem isDestructuringTop_arrayPat (elems : List (Option Node))
    (anno : Option Node) :
    isDestructuringTop (.arrayPat elems anno) = true := rfl

/-- Evaluation of `extractParam` on a top-level object pattern: the synthetic
name "param<paramIndex>" is assigned. -/
theorem extractParam_objectPat (props : List Node) (anno : Option Node)
    (ts : Bool) (i : Nat) :
    extractParam (some (.objectPat props anno)) ts i =
      some (.mk (some ("param" ++ toString i))
        (if ts then getTSType (.objectPat props anno) "Object" else "Object")
        false false false false none (some (extractProps props ts)) none) := by
  rw [extractParam.eq_def]

/-- Evaluation of `extractParam` on a top-level array pattern: the synthetic
name "param<paramIndex>" is assigned. -/
theorem extractParam_arrayPat (elems : List (Option Node)) (anno : Option Node)
    (ts : Bool) (i : Nat) :
    extractParam (some (.arrayPat elems anno)) ts i =
      some (.mk (some ("param" ++ toString i)) "Array"
        false false false false none none (some (extractElems elems ts 0))) := by
  rw [extractParam.eq_def]

/-- A synthetic "param<i>" name passes the `startsWith("param")` counter
test. -/
theorem startsWithParam_synthetic (i : Nat) (t : String) (r d o ip : Bool)
    (dv : Option String) (pr : Option (List Parameter))
    (el : Option (List (Option Parameter))) :
    startsWithParam
      (.mk (some ("param" ++ toString i)) t r d o ip dv pr el) = true := by
  simp [startsWithParam, Parameter.name, jsStartsWith_append_left]

/-- Counter evolution of the `extractParams` loop: when every parameter that
is not a top-level object/array pattern extracts to a name not starting with
"param" (at any counter value), the names passing the counter test are
exactly the synthetic names "param<st>", "param<st+1>", ... , one per
destructured parameter and in source order. -/
theorem extractParamsLoop_synthetic (ts : Bool) :
    ∀ (ps : List Node),
      (∀ p ∈ ps, isDestructuringTop p = false →
        ∀ (i : Nat) (pr : Parameter), extractParam (some p) ts i = some pr →
          startsWithParam pr = false) →
      ∀ st, (extractParamsLoop ps ts st).filterMap
          (fun pr => if startsWithParam pr then pr.name else none) =
        expectedSyntheticNames st (ps.countP (fun p => isDestructuringTop p)) := by
  intro ps
  induction ps with
  | nil =>
    intro _ st
    simp [extractParamsLoop, expectedSyntheticNames]
  | cons p rest ih =>
    intro h st
    have hrest : ∀ q ∈ rest, isDestructuringTop q = false →
        ∀ (i : Nat) (pr : Parameter), extractParam (some q) ts i = some pr →
          startsWithParam pr = false := by
      intro q hq
      exact h q (List.mem_cons_of_mem _ hq)
    by_cases hd : isDestructuringTop p = true
    · cases p <;> simp [isDestructuringTop] at hd
      all_goals
        rw [extractParamsLoop]
        simp only [extractParam_objectPat, extractParam_arrayPat,
          startsWithParam_synthetic, if_true, List.filterMap_cons, Parameter.name_mk,
          List.countP_cons, isDestructuringTop_objectPat, isDestructuringTop_arrayPat,
          ih hrest (st + 1)]
        simp [expectedSyntheticNames]
    · have hd' : isDestructuringTop p = false := by
        cases hdp : isDestructuringTop p
        · rfl
        · exact absurd hdp hd
      rw [extractParamsLoop]
      cases hext : extractParam (some p) ts st with
      | none =>
        rw [ih hrest st]
        simp [List.countP_cons, hd']
      | some pr =>
        have hsw : startsWithParam pr = false :=
          h p (List.mem_cons_self _ _) hd' st pr hext
        simp [hsw, List.countP_cons, hd', ih hrest st]

/-- Claim C2 (counterexample): in `function f(paramFoo, {}) {}` the simple
identifier parameter `paramFoo` — because its own name starts with "param" —
increments the synthetic counter, so the first (and only) destructured
parameter receives the name "param2", not "param1" as the claim requires
regardless of preceding simple identifiers. -/
theorem c2_counterexample :
    (extractParams paramFooNode false).map Parameter.name =
      [some "paramFoo", some "param2"] ∧
    ("param2" : String) ≠ "param1" := by
  constructor
  · simp [extractParams, paramFooNode, extractParamsLoop, extractParam,
      extractProps, startsWithParam, jsStartsWith, inferTypeFromDefault,
      annoOfNode, Parameter.name]
    decide
  · decide

/-- Claim C2 (amended): the counter starts at 1 and is incremented exactly
when the just-extracted parameter's name starts with "param" — which is true
for every top-level object/array destructured parameter (their synthetic
names are "param<N>"), but also for a simple identifier parameter whose own
name begins with "param".  Hence the k-th destructured/array parameter
receives "param<k>" provided no other parameter's extracted name starts with
"param": under that proviso the synthetic names handed out are exactly
"param1", "param2", ... in source order. -/
theorem c2_synthetic_counter_amended :
    (∀ (props : List Node) (anno : Option Node) (ts : Bool) (i : Nat),
      (extractParam (some (.objectPat props anno)) ts i).map Parameter.name =
        some (some ("param" ++ toString i))) ∧
    (∀ (elems : List (Option Node)) (anno : Option Node) (ts : Bool) (i : Nat),
      (extractParam (some (.arrayPat elems anno)) ts i).map Parameter.name =
        some (some ("param" ++ toString i))) ∧
    (∀ (ts : Bool) (ps : List Node),
      (∀ p ∈ ps, isDestructuringTop p = false →
        ∀ (i : Nat) (pr : Parameter), extractParam (some p) ts i = some pr →
          startsWithParam pr = false) →
      (extractParamsLoop ps ts 1).filterMap
          (fun pr => if startsWithParam pr then pr.name else none) =
        expectedSyntheticNames 1 (ps.countP (fun p => isDestructuringTop p))) := by
  refine ⟨?_, ?_, ?_⟩
  · intro props anno ts i
    simp [extractParam_objectPat, Parameter.name_mk]
  · intro elems anno ts i
    simp [extractParam_arrayPat, Parameter.name_mk]
  · intro ts ps h
    exact extractParamsLoop_synthetic ts ps h 1

/-- Claim C2 (witness): the amended counter law on
`function f(a, {}, []) {}` — the destructured parameters receive "param1" and
"param2". -/
theorem c2_witness :
    (extractParamsLoop
        [Node.identifier "a" none, Node.objectPat [] none, Node.arrayPat [] none]
        false 1).filterMap
      (fun pr => if startsWithParam pr then pr.name else none) =
      expectedSyntheticNames 1 2 := by
  have hav : ∀ i : Nat, extractParam (some (Node.identifier "a" none)) false i =
      some (.mk (some "a") "any" false false false false none none none) := by
    intro i
    rw [extractParam.eq_def]
    simp [inferTypeFromDefault, annoOfNode]
  have h := c2_synthetic_counter_amended.2.2 false
    [Node.identifier "a" none, Node.objectPat [] none, Node.arrayPat [] none]
    (by
      intro p hp hnd i pr hext
      simp only [List.mem_cons, List.mem_singleton] at hp
      rcases hp with rfl | rfl | rfl | hfalse
      · rw [hav i] at hext
        injection hext with h1
        rw [← h1]
        decide
      · simp [isDestructuringTop] at hnd
      · simp [isDestructuringTop] at hnd
      · simp at hfalse)
  have hc : ([Node.identifier "a" none, Node.objectPat [] none,
      Node.arrayPat [] none].countP (fun p => isDestructuringTop p)) = 2 := by
    decide
  rw [hc] at h
  exact h

/-- Claim C10: a rest element binding identifier `x` extracts to a Parameter
whose name is the three-character marker "..." glued onto `x`, and the
renderer's rest-parameter line strips that marker again (the first-occurrence
`replace` removes exactly the front copy), so for the untyped type
"Array<any>" the emitted line is `@param {...any} x - Rest parameter`, the
displayed name showing `x` bare. -/
theorem c10_rest_marker_roundtrip :
    ∀ (x : String) (anno : Option Node) (i maxT maxN : Nat),
      extractParam (some (.restElem (.identifier x anno))) false i =
        some (.mk (some ("..." ++ x)) "Array<any>"
          true false false false none none none) ∧
      docForParam maxT maxN
          (.mk (some ("..." ++ x)) "Array<any>" true false false false none none none)
          "" .param false =
        ["@param \x7b...any\x7d " ++ x ++ " - Rest parameter"] := by
  intro x anno i maxT maxN
  constructor
  · rw [extractParam.eq_def]
    simp [getPropertyName, keyOfNode, argOfNode, nameOfNode, jsStr]
  · rw [docForParam.eq_def]
    simp [jsStr, truthyStr, stripParamDot_dots, isParamNum_dots]
    rw [show (jsReplaceFirst (jsReplaceFirst "Array<any>" "Array<" "") ">" "")
        = "any" from by decide]
    rw [jsReplaceFirst_strip_dots]
    rw [show ("@param \x7b..." ++ "any" ++ "\x7d " : String)
        = "@param \x7b...any\x7d " from by decide]

/-- The upward scan reports a comment exactly when some line at or above the
scanned index contains a block-comment opener with no blank line strictly
between that line and the scanned index. -/
theorem scanUp_iff (lines : List String) :
    ∀ i, scanUp lines i = true ↔
      ∃ j, j ≤ i ∧ containsOpenComment (lines.getD j "") = true ∧
        ∀ k, j < k → k ≤ i → jsTrim (lines.getD k "") ≠ "" := by
  intro i
  induction i with
  | zero =>
    rw [scanUp]
    constructor
    · intro h
      exact ⟨0, Nat.le_refl 0, h, by omega⟩
    · rintro ⟨j, hj, hc, _⟩
      have : j = 0 := Nat.le_zero.mp hj
      rw [this] at hc
      exact hc
  | succ i ih =>
    rw [scanUp]
    by_cases hc : containsOpenComment (lines.getD (i + 1) "") = true
    · simp only [hc, if_true]
      constructor
      · intro _
        exact ⟨i + 1, Nat.le_refl _, hc, by omega⟩
      · intro _
        trivial
    · simp only [hc]
      rw [if_neg (by simpa using hc)]
      by_cases hb : jsTrim (lines.getD (i + 1) "") = ""
      · simp only [hb, if_true]
        constructor
        · intro h
          cases h
        · rintro ⟨j, hj, hcj, hk⟩
          rcases Nat.lt_or_ge j (i + 1) with hlt | hge
          · exact absurd hb (hk (i + 1) hlt (Nat.le_refl _))
          · have : j = i + 1 := Nat.le_antisymm hj hge
            rw [this] at hcj
            exact absurd hcj hc
      · rw [if_neg hb]
        rw [ih]
        constructor
        · rintro ⟨j, hj, hcj, hk⟩
          refine ⟨j, Nat.le_succ_of_le hj, hcj, ?_⟩
          intro k hjk hki
          rcases Nat.lt_or_ge k (i + 1) with hlt | hge
          · exact hk k hjk (by omega)
          · have : k = i + 1 := Nat.le_antisymm hki hge
            rw [this]
            exact hb
        · rintro ⟨j, hj, hcj, hk⟩
          have hji : j ≤ i := by
            rcases Nat.lt_or_ge j (i + 1) with hlt | hge
            · omega
            · have : j = i + 1 := Nat.le_antisymm hj hge
              rw [this] at hcj
              exact absurd hcj hc
          exact ⟨j, hji, hcj, fun k hjk hki => hk k hjk (by omega)⟩

/-- Claim C3: `hasComment` implements the one-line-lookback rule — reading a
node's 1-based start line, it inspects only the physical line immediately
above: a blank line reports no comment (even if a block comment sits two
lines above), a line whose trimmed text starts with "//" reports a comment, a
line whose trimmed text ends with "*/" reports a comment exactly when an
opening "/**" or "/*" is found scanning upward before any blank line, and any
other content reports no comment. -/
theorem c3_hasComment_rule :
    (∀ (n : LocatedNode) (l : SrcLoc) (st : LocStart) (code : String),
      n.loc = some l → l.start = some st →
      hasComment (some n) code = hasCommentL (code.splitOn "\n") st.line) ∧
    (∀ (lines : List String) (startLine : Nat), 2 ≤ startLine →
      (jsTrim (lines.getD (startLine - 2) "") = "" →
        hasCommentL lines startLine = false) ∧
      (jsTrim (lines.getD (startLine - 2) "") ≠ "" →
        jsStartsWith (jsTrim (lines.getD (startLine - 2) "")) "//" = true →
        hasCommentL lines startLine = true) ∧
      (jsTrim (lines.getD (startLine - 2) "") ≠ "" →
        jsStartsWith (jsTrim (lines.getD (startLine - 2) "")) "//" = false →
        jsEndsWith (jsTrim (lines.getD (startLine - 2) "")) "*/" = true →
        (hasCommentL lines startLine = true ↔
          ∃ j, j ≤ startLine - 2 ∧ containsOpenComment (lines.getD j "") = true ∧
            ∀ k, j < k → k ≤ startLine - 2 → jsTrim (lines.getD k "") ≠ "")) ∧
      (jsTrim (lines.getD (startLine - 2) "") ≠ "" →
        jsStartsWith (jsTrim (lines.getD (startLine - 2) "")) "//" = false →
        jsEndsWith (jsTrim (lines.getD (startLine - 2) "")) "*/" = false →
        hasCommentL lines startLine = false)) := by
  constructor
  · intro n l st code hl hst
    simp [hasComment, hl, hst]
  · intro lines startLine hge
    have hnotlt : ¬ startLine < 2 := by omega
    refine ⟨?_, ?_, ?_, ?_⟩
    · intro hblank
      rw [hasCommentL, if_neg hnotlt, if_pos hblank]
    · intro hnb hsl
      rw [hasCommentL, if_neg hnotlt, if_neg hnb, if_pos hsl]
    · intro hnb hsl hend
      rw [hasCommentL, if_neg hnotlt]
      rw [if_neg hnb, if_neg (by rw [hsl]; simp), if_pos hend]
      exact scanUp_iff lines (startLine - 2)
    · intro hnb hsl hend
      rw [hasCommentL, if_neg hnotlt]
      rw [if_neg hnb, if_neg (by rw [hsl]; simp), if_neg (by rw [hend]; simp)]

/-- Claim C3 (witness): the rule at concrete inputs — a "//" line directly
above line 2 is detected; a blank line directly above defeats detection even
with a block comment two lines above. -/
theorem c3_witness :
    hasCommentL ["// note", "function f() \x7b\x7d"] 2 = true ∧
    hasCommentL ["/** doc */", "", "function g() \x7b\x7d"] 3 = false := by
  constructor
  · exact (c3_hasComment_rule.2 ["// note", "function f() \x7b\x7d"] 2
      (by omega)).2.1 (by decide) (by decide)
  · exact (c3_hasComment_rule.2 ["/** doc */", "", "function g() \x7b\x7d"] 3
      (by omega)).1 (by decide)

/-- Claim C4 (counterexample): three of the public entry points throw a
TypeError on a null function node — `extractParams` reads `node.params`,
`getReturnType` reads `functionNode.body`, and `generateFunctionComment`
calls `extractParams` outside any try — so the core does let an exception
escape for a null input, contradicting the claim's "for every input,
including null". -/
theorem c4_counterexample :
    extractParamsE none false = .error JsErr.typeError ∧
    getReturnTypeE none false = .error JsErr.typeError ∧
    generateFunctionCommentE none "" "f" (RenderOptions.mk false false) =
      .error JsErr.typeError := by
  refine ⟨rfl, rfl, rfl⟩

/-- Claim C4 (amended): `generateParamDocs` and `extractParam` are total for
every input including null (empty string and null results); `extractParams`
and `generateFunctionComment` are total for every non-null function node, and
any error raised inside the render pipeline is caught at `generateParamDocs`
and converted to the empty string; `extractParams`, `getReturnType` and
`generateFunctionComment` throw a TypeError when handed a null node; and
`getReturnType` throws on exactly one non-null shape as well — an
ArrowFunctionExpression node with no body and no applicable TypeScript return
annotation, where line 389 reads `functionNode.body.type` — being total on
every other non-null node; every escaping exception is a TypeError. -/
theorem c4_totality_amended :
    (∀ (opts : RenderOptions) (nm : Option String),
      generateParamDocs none opts nm = "") ∧
    (∀ (ts : Bool) (i : Nat), extractParam none ts i = none) ∧
    (∀ (fn : FunctionNode) (ts : Bool), (extractParamsE (some fn) ts).isOk = true) ∧
    (∀ (fn : FunctionNode) (code : String) (nm : String) (opts : RenderOptions),
      (generateFunctionCommentE (some fn) code nm opts).isOk = true) ∧
    (∀ (fn : FunctionNode) (opts : RenderOptions) (nm : Option String) (e : JsErr),
      generateParamDocsBody fn opts nm = .error e →
      generateParamDocs (some fn) opts nm = "") ∧
    (∀ (ts : Bool), extractParamsE none ts = .error JsErr.typeError) ∧
    (∀ (ts : Bool), getReturnTypeE none ts = .error JsErr.typeError) ∧
    (∀ (fn : FunctionNode) (ts : Bool),
      (getReturnType fn ts).isOk = false ↔
        fn.isArrow = true ∧ fn.body = none ∧
          ¬(ts = true ∧ fn.returnType.isSome = true)) ∧
    (∀ (fn : FunctionNode) (ts : Bool) (e : JsErr),
      getReturnType fn ts = .error e → e = JsErr.typeError) := by
  refine ⟨?_, ?_, ?_, ?_, ?_, ?_, ?_, ?_, ?_⟩
  · intro opts nm
    rfl
  · intro ts i
    rw [extractParam.eq_def]
  · intro fn ts
    rfl
  · intro fn code nm opts
    rw [generateFunctionCommentE]
    simp only [extractParamsE]
    split <;> rfl
  · intro fn opts nm e h
    simp [generateParamDocs, h]
  · intro ts
    rfl
  · intro ts
    rfl
  · intro fn ts
    obtain ⟨p, v, b, arr, idn, rt, a0, g0⟩ := fn
    cases ts <;> cases rt <;> cases arr <;> rcases b with _ | (ss | ee) <;>
      simp [getReturnType, getReturnTypeArrowCheck, bodyHasRet, Except.isOk]
    all_goals (first | rfl | (split <;> rfl))
  · intro fn ts e _
    cases e
    rfl

/-- Claim C4 (witness): the amended totality facts at concrete inputs — the
null render is empty, and a pipeline error (the body-less arrow node, where
`getReturnType` itself throws) is converted to the empty string. -/
theorem c4_witness :
    generateParamDocs none (RenderOptions.mk false false) none = "" ∧
    generateParamDocs (some arrowNoBodyNode) (RenderOptions.mk false false) none = "" ∧
    (getReturnType arrowNoBodyNode false).isOk = false ∧
    getReturnType arrowNoBodyNode false = .error JsErr.typeError ∧
    JsErr.typeError = JsErr.typeError := by
  refine ⟨?_, ?_, ?_, ?_, ?_⟩
  · exact c4_totality_amended.1 (RenderOptions.mk false false) none
  · exact c4_totality_amended.2.2.2.2.1 arrowNoBodyNode (RenderOptions.mk false false)
      none JsErr.typeError
      (by simp [generateParamDocsBody, arrowNoBodyNode, extractParams,
        getReturnType, getReturnTypeArrowCheck])
  · exact (c4_totality_amended.2.2.2.2.2.2.2.1 arrowNoBodyNode false).mpr
      ⟨rfl, rfl, by simp [arrowNoBodyNode]⟩
  · simp [getReturnType, arrowNoBodyNode, getReturnTypeArrowCheck]
  · exact c4_totality_amended.2.2.2.2.2.2.2.2 arrowNoBodyNode false JsErr.typeError
      (by simp [getReturnType, arrowNoBodyNode, getReturnTypeArrowCheck])

/-- Evaluation of `extractParam` on a defaulted pattern: recurse on the left
side, then stamp the default and refine the type from the default literal. -/
theorem extractParam_assignPat (l r : Node) (ts : Bool) (i : Nat) :
    extractParam (some (.assignPat l r)) ts i =
      match extractParam (some l) ts i with
      | none => none
      | some (.mk n t rr _ o pp _ pr el) =>
        some (.mk n
          (match r with
           | .literal (.numL _) => "number"
           | .literal (.strL _) => "string"
           | .literal (.boolL _) => "boolean"
           | .arrayExpr _ => "Array"
           | .objectExpr _ => "Object"
           | _ => t)
          rr true o pp (some (generate r)) pr el) := by
  rw [extractParam.eq_def]

/-- Evaluation of `extractParam` on a parameter property: recurse on the
inner pattern, then stamp the flag and override the type. -/
theorem extractParam_tsParamProperty (inner : Node) (ts : Bool) (i : Nat) :
    extractParam (some (.tsParamProperty inner)) ts i =
      match extractParam (some inner) ts i with
      | none => none
      | some (.mk n _ rr d o _ dv pr el) =>
        some (.mk n (getTSType inner "any") rr d o true dv pr el) := by
  rw [extractParam.eq_def]

/-- Evaluation of the property-loop body on an object-pattern value. -/
theorem extractOneProp_objectPat (key : Node) (ps : List Node)
    (a panno : Option Node) (ts : Bool) :
    extractOneProp (.property key (.objectPat ps a) panno) ts =
      some (.mk (getPropertyName (some (.property key (.objectPat ps a) panno)))
        "Object" false false false false none (some (extractProps ps ts)) none) := by
  rw [extractOneProp.eq_def]

/-- Evaluation of the property-loop body on an array-pattern value. -/
theorem extractOneProp_arrayPat (key : Node) (es : List (Option Node))
    (a panno : Option Node) (ts : Bool) :
    extractOneProp (.property key (.arrayPat es a) panno) ts =
      some (.mk (getPropertyName (some (.property key (.arrayPat es a) panno)))
        "Array" false false false false none none
        (some (extractElems es ts 0))) := by
  rw [extractOneProp.eq_def]

/-- Evaluation of the property-loop body on a defaulted value. -/
theorem extractOneProp_assignPat (key l r : Node) (panno : Option Node) (ts : Bool) :
    extractOneProp (.property key (.assignPat l r) panno) ts =
      (if isObjectPatNode l || isObjectExprNode r then
        some (.mk (getPropertyName (some (.property key (.assignPat l r) panno)))
          "Object" false true false false
          (if generate r = "" then none else some (generate r))
          (some (extractProps (propsOfPatOrDefault l r) ts)) none)
      else if isArrayPatNode l then
        some (.mk (getPropertyName (some (.property key (.assignPat l r) panno)))
          "Array" false true false false
          (if generate r = "" then none else some (generate r)) none
          (some (extractElems (elemsOfArrayPat l) ts 0)))
      else
        some (.mk (getPropertyName (some (.property key (.assignPat l r) panno)))
          (defaultRefinedType r (propType0 (.assignPat l r) panno ts))
          false true false false
          (if generate r = "" then none else some (generate r)) none none)) := by
  rw [extractOneProp.eq_def]

/-- Evaluation of the property loop on a cons cell. -/
theorem extractProps_cons (prop : Node) (rest : List Node) (ts : Bool) :
    extractProps (prop :: rest) ts =
      match extractOneProp prop ts with
      | some pr => pr :: extractProps rest ts
      | none => extractProps rest ts := by
  rw [extractProps.eq_def]

/-- Evaluation of the element loop on a cons cell. -/
theorem extractElems_cons (e : Option Node) (rest : List (Option Node))
    (ts : Bool) (i : Nat) :
    extractElems (e :: rest) ts i =
      extractParam e ts i :: extractElems rest ts (i + 1) := by
  rw [extractElems.eq_def]

/-- Unfolding of the deep check on a constructed Parameter. -/
theorem paramDeepAll_mk (q : Parameter → Bool) (n : Option String) (t : String)
    (r d o ip : Bool) (dv : Option String) (props : Option (List Parameter))
    (el : Option (List (Option Parameter))) :
    paramDeepAll q (.mk n t r d o ip dv props el) =
      (q (.mk n t r d o ip dv props el) &&
       (match props with | some l => paramsDeepAll q l | none => true) &&
       (match el with | some l => optParamsDeepAll q l | none => true)) := by
  rw [paramDeepAll.eq_def]

/-- Computation of the C6 one-parameter check on a constructed Parameter. -/
theorem noBothPropsElems_mk (n : Option String) (t : String)
    (r d o ip : Bool) (dv : Option String) (props : Option (List Parameter))
    (el : Option (List (Option Parameter))) :
    noBothPropsElems (.mk n t r d o ip dv props el) =
      !(props.isSome && el.isSome) := rfl

mutual

/-- Deep C6 invariant for `extractParam` results: no Parameter in the result
tree has both `properties` and `elements` set. -/
theorem c6deep_param (p : Option Node) (ts : Bool) (i : Nat) :
    optAll (paramDeepAll noBothPropsElems) (extractParam p ts i) = true := by
  cases p with
  | none =>
    rw [extractParam.eq_def]
    rfl
  | some q =>
    cases q
    case identifier nm anno =>
      rw [extractParam.eq_def]
      simp [optAll, paramDeepAll, noBothPropsElems, Parameter.properties,
        Parameter.elements]
    case restElem a =>
      rw [extractParam.eq_def]
      simp [optAll, paramDeepAll, noBothPropsElems, Parameter.properties,
        Parameter.elements]
    case assignPat l r =>
      have ih := c6deep_param (some l) ts i
      rw [extractParam_assignPat]
      cases hext : extractParam (some l) ts i with
      | none => rfl
      | some pi =>
        rw [hext] at ih
        obtain ⟨n, t, rr, dd, o, pp, dv, prp, el⟩ := pi
        simp only [optAll] at ih ⊢
        rw [paramDeepAll_mk, noBothPropsElems_mk] at ih ⊢
        exact ih
    case tsParamProperty inner =>
      have ih := c6deep_param (some inner) ts i
      rw [extractParam_tsParamProperty]
      cases hext : extractParam (some inner) ts i with
      | none => rfl
      | some pi =>
        rw [hext] at ih
        obtain ⟨n, t, rr, dd, o, pp, dv, prp, el⟩ := pi
        simp only [optAll] at ih ⊢
        rw [paramDeepAll_mk, noBothPropsElems_mk] at ih ⊢
        exact ih
    case objectPat props anno =>
      rw [extractParam_objectPat]
      simp only [optAll, paramDeepAll, noBothPropsElems, Parameter.properties,
        Parameter.elements, Bool.and_eq_true]
      exact ⟨⟨by simp, c6deep_props props ts⟩, trivial⟩
    case arrayPat elems anno =>
      rw [extractParam_arrayPat]
      simp only [optAll, paramDeepAll, noBothPropsElems, Parameter.properties,
        Parameter.elements, Bool.and_eq_true]
      exact ⟨⟨by simp, trivial⟩, c6deep_elems elems ts 0⟩
    all_goals
      rw [extractParam.eq_def]
      rfl
termination_by sizeOf p
decreasing_by
  all_goals simp
  all_goals omega

/-- Deep C6 invariant for the property-loop body. -/
theorem c6deep_oneProp (prop : Node) (ts : Bool) :
    optAll (paramDeepAll noBothPropsElems) (extractOneProp prop ts) = true := by
  cases prop
  case restElem a =>
    rw [extractOneProp.eq_def]
    simp [optAll, paramDeepAll, noBothPropsElems, Parameter.properties,
      Parameter.elements]
  case property key value panno =>
    cases value
    case assignPat l r =>
      rw [extractOneProp_assignPat]
      by_cases h1 : (isObjectPatNode l || isObjectExprNode r) = true
      · rw [if_pos h1]
        simp only [optAll, paramDeepAll, noBothPropsElems, Parameter.properties,
          Parameter.elements, Bool.and_eq_true]
        exact ⟨⟨by simp, c6deep_props (propsOfPatOrDefault l r) ts⟩, trivial⟩
      · rw [if_neg h1]
        by_cases h2 : isArrayPatNode l = true
        · rw [if_pos h2]
          simp only [optAll, paramDeepAll, noBothPropsElems, Parameter.properties,
            Parameter.elements, Bool.and_eq_true]
          exact ⟨⟨by simp, trivial⟩, c6deep_elems (elemsOfArrayPat l) ts 0⟩
        · rw [if_neg h2]
          simp [optAll, paramDeepAll, noBothPropsElems, Parameter.properties,
            Parameter.elements]
    case objectPat ps a =>
      rw [extractOneProp_objectPat]
      simp only [optAll, paramDeepAll, noBothPropsElems, Parameter.properties,
        Parameter.elements, Bool.and_eq_true]
      exact ⟨⟨by simp, c6deep_props ps ts⟩, trivial⟩
    case arrayPat es a =>
      rw [extractOneProp_arrayPat]
      simp only [optAll, paramDeepAll, noBothPropsElems, Parameter.properties,
        Parameter.elements, Bool.and_eq_true]
      exact ⟨⟨by simp, trivial⟩, c6deep_elems es ts 0⟩
    all_goals
      rw [extractOneProp.eq_def]
      simp [optAll, paramDeepAll, noBothPropsElems, Parameter.properties,
        Parameter.elements]
  all_goals
    rw [extractOneProp.eq_def]
    rfl
termination_by sizeOf prop
decreasing_by
  all_goals first
    | apply decPropsOfDefault
    | apply decElemsOfDefault
    | (simp
       omega)

/-- Deep C6 invariant for the property loop. -/
theorem c6deep_props (ps : List Node) (ts : Bool) :
    paramsDeepAll noBothPropsElems (extractProps ps ts) = true := by
  cases ps with
  | nil =>
    rw [extractProps.eq_def]
    rfl
  | cons prop rest =>
    have ih := c6deep_props rest ts
    have ih1 := c6deep_oneProp prop ts
    rw [extractProps_cons]
    cases hext : extractOneProp prop ts with
    | none => exact ih
    | some pr =>
      rw [hext] at ih1
      simp only [optAll] at ih1
      simp only [paramsDeepAll, Bool.and_eq_true]
      exact ⟨ih1, ih⟩
termination_by sizeOf ps
decreasing_by
  all_goals simp
  all_goals omega

/-- Deep C6 invariant for the element loop. -/
theorem c6deep_elems (es : List (Option Node)) (ts : Bool) (i : Nat) :
    optParamsDeepAll noBothPropsElems (extractElems es ts i) = true := by
  cases es with
  | nil =>
    rw [extractElems.eq_def]
    rfl
  | cons e rest =>
    have ih := c6deep_elems rest ts (i + 1)
    have ih1 := c6deep_param e ts i
    rw [extractElems_cons]
    cases hext : extractParam e ts i with
    | none =>
      simp only [optParamsDeepAll]
      exact ih
    | some pr =>
      rw [hext] at ih1
      simp only [optAll] at ih1
      simp only [optParamsDeepAll, Bool.and_eq_true]
      exact ⟨ih1, ih⟩
termination_by sizeOf es
decreasing_by
  all_goals simp
  all_goals omega

end

/-- Unfolding of the list worker of the deep check. -/
theorem paramsDeepAll_cons (q : Parameter → Bool) (a : Parameter)
    (rest : List Parameter) :
    paramsDeepAll q (a :: rest) = (paramDeepAll q a && paramsDeepAll q rest) := by
  rw [paramsDeepAll.eq_def]

/-- A deep check over a list covers each member. -/
theorem paramsDeepAll_mem (q : Parameter → Bool) :
    ∀ (l : List Parameter), paramsDeepAll q l = true →
      ∀ pr ∈ l, paramDeepAll q pr = true := by
  intro l
  induction l with
  | nil =>
    intro _ pr hpr
    simp at hpr
  | cons a rest ih =>
    intro h pr hpr
    rw [paramsDeepAll_cons, Bool.and_eq_true] at h
    rcases List.mem_cons.mp hpr with rfl | hmem
    · exact h.1
    · exact ih h.2 pr hmem

/-- Claim C6: for every pattern accepted by extraction, at any nesting depth,
the resulting Parameter never has both `properties` and `elements` set: deep
over the whole result tree of `extractParam` and of
`extractObjectPatternProperties`, and in particular an object pattern's
Parameter carries no `elements` and an array pattern's Parameter carries no
`properties`. -/
theorem c6_exclusive_props_elems :
    (∀ (p : Node) (ts : Bool) (i : Nat) (pr : Parameter),
        extractParam (some p) ts i = some pr →
        paramDeepAll noBothPropsElems pr = true) ∧
    (∀ (props : Option (List Node)) (ts : Bool) (pn : String) (pr : Parameter),
        pr ∈ extractObjectPatternProperties props ts pn →
        paramDeepAll noBothPropsElems pr = true) ∧
    (∀ (props : List Node) (anno : Option Node) (ts : Bool) (i : Nat),
        (extractParam (some (.objectPat props anno)) ts i).map Parameter.elements =
          some none) ∧
    (∀ (elems : List (Option Node)) (anno : Option Node) (ts : Bool) (i : Nat),
        (extractParam (some (.arrayPat elems anno)) ts i).map Parameter.properties =
          some none) := by
  refine ⟨?_, ?_, ?_, ?_⟩
  · intro p ts i pr hext
    have h := c6deep_param (some p) ts i
    rw [hext] at h
    exact h
  · intro props ts pn pr hmem
    cases props with
    | none => simp [extractObjectPatternProperties] at hmem
    | some ps =>
      simp only [extractObjectPatternProperties] at hmem
      exact paramsDeepAll_mem _ _ (c6deep_props ps ts) pr hmem
  · intro props anno ts i
    rw [extractParam_objectPat]
    rfl
  · intro elems anno ts i
    rw [extractParam_arrayPat]
    rfl

/-- Claim C6 (witness): the deep invariant at the parameter of
`function test({ a = 1 }) {}`. -/
theorem c6_witness :
    paramDeepAll noBothPropsElems
      (Parameter.mk (some "param1") "Object" false false false false none
        (some [Parameter.mk (some "a") "number" false true false false (some "1")
          none none]) none) = true := by
  refine c6_exclusive_props_elems.1
    (.objectPat [Node.property (.identifier "a" none)
      (.assignPat (.identifier "a" none) (.literal (.numL 1))) none] none)
    false 1 _ ?_
  rw [extractParam_objectPat]
  simp [extractProps, extractOneProp, getPropertyName, keyOfNode, argOfNode,
    nameOfNode, generate, propType0, defaultRefinedType, isObjectPatNode,
    isObjectExprNode, isArrayPatNode]
  decide

/-- Projection computation for the rest flag. -/
theorem Parameter.isRest_mk (n : Option String) (t : String) (r d o ip : Bool)
    (dv : Option String) (pr : Option (List Parameter))
    (el : Option (List (Option Parameter))) :
    (Parameter.mk n t r d o ip dv pr el).isRest = r := rfl

/-- Projection computation for the default flag. -/
theorem Parameter.hasDefault_mk (n : Option String) (t : String) (r d o ip : Bool)
    (dv : Option String) (pr : Option (List Parameter))
    (el : Option (List (Option Parameter))) :
    (Parameter.mk n t r d o ip dv pr el).hasDefault = d := rfl

/-- Computation of the C7 one-parameter check on a constructed Parameter. -/
theorem noRestWithDefault_mk (n : Option String) (t : String)
    (r d o ip : Bool) (dv : Option String) (props : Option (List Parameter))
    (el : Option (List (Option Parameter))) :
    noRestWithDefault (.mk n t r d o ip dv props el) = !(r && d) := rfl

/-- Unfolding of well-formedness on a defaulted pattern. -/
theorem wfNode_assignPat (l r : Node) :
    wfNode (.assignPat l r) = (!isRestCore l && wfNode l && wfNode r) := by
  rw [wfNode.eq_def]

/-- Unfolding of well-formedness on an object pattern. -/
theorem wfNode_objectPat (ps : List Node) (a : Option Node) :
    wfNode (.objectPat ps a) = wfNodeList ps := by
  rw [wfNode.eq_def]

/-- Unfolding of well-formedness on an array pattern. -/
theorem wfNode_arrayPat (es : List (Option Node)) (a : Option Node) :
    wfNode (.arrayPat es a) = wfOptNodeList es := by
  rw [wfNode.eq_def]

/-- Unfolding of well-formedness on a rest element. -/
theorem wfNode_restElem (a : Node) : wfNode (.restElem a) = wfNode a := by
  rw [wfNode.eq_def]

/-- Unfolding of well-formedness on a parameter property. -/
theorem wfNode_tsParamProperty (p : Node) :
    wfNode (.tsParamProperty p) = wfNode p := by
  rw [wfNode.eq_def]

/-- Unfolding of well-formedness on a property node. -/
theorem wfNode_property (k v : Node) (a : Option Node) :
    wfNode (.property k v a) = wfNode v := by
  rw [wfNode.eq_def]

/-- Unfolding of well-formedness on an object literal. -/
theorem wfNode_objectExpr (ps : List Node) :
    wfNode (.objectExpr ps) = wfNodeList ps := by
  rw [wfNode.eq_def]

/-- Unfolding of well-formedness on an array literal. -/
theorem wfNode_arrayExpr (es : List (Option Node)) :
    wfNode (.arrayExpr es) = wfOptNodeList es := by
  rw [wfNode.eq_def]

/-- Unfolding of well-formedness on a property-node list. -/
theorem wfNodeList_cons (p : Node) (rest : List Node) :
    wfNodeList (p :: rest) = (wfNode p && wfNodeList rest) := by
  rw [wfNodeList.eq_def]

/-- Unfolding of well-formedness on an element list. -/
theorem wfOptNodeList_cons (e : Option Node) (rest : List (Option Node)) :
    wfOptNodeList (e :: rest) =
      (match e with
       | some p => wfNode p && wfOptNodeList rest
       | none => wfOptNodeList rest) := by
  rw [wfOptNodeList.eq_def]
  cases e <;> rfl

/-- A well-formed left side and default expression make the selected property
list well-formed. -/
theorem wf_propsOfPatOrDefault (l r : Node) (hl : wfNode l = true)
    (hr : wfNode r = true) : wfNodeList (propsOfPatOrDefault l r) = true := by
  rw [propsOfPatOrDefault.eq_def]
  split
  · rename_i ps a
    rw [wfNode_objectPat] at hl
    exact hl
  · split
    · rename_i ps
      rw [wfNode_objectExpr] at hr
      exact hr
    · rw [wfNodeList.eq_def]

/-- A well-formed left side makes the selected element list well-formed. -/
theorem wf_elemsOfArrayPat (l : Node) (hl : wfNode l = true) :
    wfOptNodeList (elemsOfArrayPat l) = true := by
  rw [elemsOfArrayPat.eq_def]
  split
  · rename_i es a
    rw [wfNode_arrayPat] at hl
    exact hl
  · rw [wfOptNodeList.eq_def]

mutual

/-- Deep C7 invariant for `extractParam` on well-formed patterns, jointly with
the fact that a result is flagged `isRest` exactly when the pattern peels to a
rest element. -/
theorem c7deep_param (p : Node) (ts : Bool) (i : Nat) :
    wfNode p = true →
    ∀ pr, extractParam (some p) ts i = some pr →
      paramDeepAll noRestWithDefault pr = true ∧ pr.isRest = isRestCore p := by
  cases p
  case identifier nm anno =>
    intro _ pr hext
    rw [extractParam.eq_def] at hext
    simp only [Option.some.injEq] at hext
    rw [← hext]
    constructor
    · rw [paramDeepAll_mk, noRestWithDefault_mk]
      rfl
    · rfl
  case restElem a =>
    intro _ pr hext
    rw [extractParam.eq_def] at hext
    simp only [Option.some.injEq] at hext
    rw [← hext]
    constructor
    · rw [paramDeepAll_mk, noRestWithDefault_mk]
      rfl
    · rfl
  case objectPat props anno =>
    intro hwf pr hext
    rw [wfNode_objectPat] at hwf
    rw [extractParam_objectPat] at hext
    simp only [Option.some.injEq] at hext
    rw [← hext]
    constructor
    · rw [paramDeepAll_mk, noRestWithDefault_mk]
      simp only [Bool.and_eq_true]
      exact ⟨⟨by trivial, c7deep_props props ts hwf⟩, by trivial⟩
    · rfl
  case arrayPat elems anno =>
    intro hwf pr hext
    rw [wfNode_arrayPat] at hwf
    rw [extractParam_arrayPat] at hext
    simp only [Option.some.injEq] at hext
    rw [← hext]
    constructor
    · rw [paramDeepAll_mk, noRestWithDefault_mk]
      simp only [Bool.and_eq_true]
      exact ⟨⟨by trivial, by trivial⟩, c7deep_elems elems ts 0 hwf⟩
    · rfl
  case assignPat l r =>
    intro hwf pr hext
    rw [wfNode_assignPat] at hwf
    simp only [Bool.and_eq_true] at hwf
    obtain ⟨⟨hnr, hwl⟩, _⟩ := hwf
    have hcore : isRestCore l = false := by
      cases hc : isRestCore l
      · rfl
      · rw [hc] at hnr
        simp at hnr
    rw [extractParam_assignPat] at hext
    cases hil : extractParam (some l) ts i with
    | none =>
      rw [hil] at hext
      simp at hext
    | some pi =>
      rw [hil] at hext
      obtain ⟨n, t, rr, dd, o, pp, dv, prp, el⟩ := pi
      have ih := c7deep_param l ts i hwl _ hil
      have hrr : rr = false := by
        have := ih.2
        rw [Parameter.isRest_mk] at this
        rw [this, hcore]
      simp only [Option.some.injEq] at hext
      rw [← hext]
      constructor
      · rw [paramDeepAll_mk, noRestWithDefault_mk]
        have hdeep := ih.1
        rw [paramDeepAll_mk] at hdeep
        simp only [Bool.and_eq_true] at hdeep ⊢
        exact ⟨⟨by rw [hrr]; rfl, hdeep.1.2⟩, hdeep.2⟩
      · rw [Parameter.isRest_mk, hrr]
        simp [isRestCore, hcore]
  case tsParamProperty inner =>
    intro hwf pr hext
    rw [wfNode_tsParamProperty] at hwf
    rw [extractParam_tsParamProperty] at hext
    cases hil : extractParam (some inner) ts i with
    | none =>
      rw [hil] at hext
      simp at hext
    | some pi =>
      rw [hil] at hext
      obtain ⟨n, t, rr, dd, o, pp, dv, prp, el⟩ := pi
      have ih := c7deep_param inner ts i hwf _ hil
      simp only [Option.some.injEq] at hext
      rw [← hext]
      constructor
      · have hdeep := ih.1
        rw [paramDeepAll_mk, noRestWithDefault_mk] at hdeep ⊢
        exact hdeep
      · rw [Parameter.isRest_mk]
        have := ih.2
        rw [Parameter.isRest_mk] at this
        rw [this]
        simp [isRestCore]
  all_goals
    intro _ pr hext
    rw [extractParam.eq_def] at hext
    simp at hext
termination_by sizeOf p
decreasing_by
  all_goals simp
  all_goals omega

/-- Deep C7 invariant for the property-loop body on well-formed property
nodes. -/
theorem c7deep_oneProp (prop : Node) (ts : Bool) :
    wfNode prop = true →
    ∀ pr, extractOneProp prop ts = some pr →
      paramDeepAll noRestWithDefault pr = true := by
  cases prop
  case restElem a =>
    intro _ pr hext
    rw [extractOneProp.eq_def] at hext
    simp only [Option.some.injEq] at hext
    rw [← hext]
    rw [paramDeepAll_mk, noRestWithDefault_mk]
    rfl
  case property key value panno =>
    intro hwf pr hext
    rw [wfNode_property] at hwf
    cases value
    case assignPat l r =>
      rw [wfNode_assignPat] at hwf
      simp only [Bool.and_eq_true] at hwf
      obtain ⟨⟨_, hwl⟩, hwr⟩ := hwf
      rw [extractOneProp_assignPat] at hext
      by_cases h1 : (isObjectPatNode l || isObjectExprNode r) = true
      · rw [if_pos h1] at hext
        simp only [Option.some.injEq] at hext
        rw [← hext]
        rw [paramDeepAll_mk, noRestWithDefault_mk]
        simp only [Bool.and_eq_true]
        exact ⟨⟨by trivial,
          c7deep_props (propsOfPatOrDefault l r) ts (wf_propsOfPatOrDefault l r hwl hwr)⟩,
          by trivial⟩
      · rw [if_neg h1] at hext
        by_cases h2 : isArrayPatNode l = true
        · rw [if_pos h2] at hext
          simp only [Option.some.injEq] at hext
          rw [← hext]
          rw [paramDeepAll_mk, noRestWithDefault_mk]
          simp only [Bool.and_eq_true]
          exact ⟨⟨by trivial, by trivial⟩,
            c7deep_elems (elemsOfArrayPat l) ts 0 (wf_elemsOfArrayPat l hwl)⟩
        · rw [if_neg h2] at hext
          simp only [Option.some.injEq] at hext
          rw [← hext]
          rw [paramDeepAll_mk, noRestWithDefault_mk]
          rfl
    case objectPat ps a =>
      rw [wfNode_objectPat] at hwf
      rw [extractOneProp_objectPat] at hext
      simp only [Option.some.injEq] at hext
      rw [← hext]
      rw [paramDeepAll_mk, noRestWithDefault_mk]
      simp only [Bool.and_eq_true]
      exact ⟨⟨by trivial, c7deep_props ps ts hwf⟩, by trivial⟩
    case arrayPat es a =>
      rw [wfNode_arrayPat] at hwf
      rw [extractOneProp_arrayPat] at hext
      simp only [Option.some.injEq] at hext
      rw [← hext]
      rw [paramDeepAll_mk, noRestWithDefault_mk]
      simp only [Bool.and_eq_true]
      exact ⟨⟨by trivial, by trivial⟩, c7deep_elems es ts 0 hwf⟩
    all_goals
      rw [extractOneProp.eq_def] at hext
      simp only [Option.some.injEq] at hext
      rw [← hext]
      rw [paramDeepAll_mk, noRestWithDefault_mk]
      rfl
  all_goals
    intro _ pr hext
    rw [extractOneProp.eq_def] at hext
    simp at hext
termination_by sizeOf prop
decreasing_by
  all_goals first
    | apply decPropsOfDefault
    | apply decElemsOfDefault
    | (simp
       omega)

/-- Deep C7 invariant for the property loop on well-formed property lists. -/
theorem c7deep_props (ps : List Node) (ts : Bool) :
    wfNodeList ps = true →
    paramsDeepAll noRestWithDefault (extractProps ps ts) = true := by
  cases ps with
  | nil =>
    intro _
    rw [extractProps.eq_def]
    rfl
  | cons prop rest =>
    intro hwf
    rw [wfNodeList_cons, Bool.and_eq_true] at hwf
    have ih := c7deep_props rest ts hwf.2
    rw [extractProps_cons]
    cases hext : extractOneProp prop ts with
    | none => exact ih
    | some pr =>
      have h1 := c7deep_oneProp prop ts hwf.1 pr hext
      rw [paramsDeepAll_cons, Bool.and_eq_true]
      exact ⟨h1, ih⟩
termination_by sizeOf ps
decreasing_by
  all_goals simp
  all_goals omega

/-- Deep C7 invariant for the element loop on well-formed element lists. -/
theorem c7deep_elems (es : List (Option Node)) (ts : Bool) (i : Nat) :
    wfOptNodeList es = true →
    optParamsDeepAll noRestWithDefault (extractElems es ts i) = true := by
  cases es with
  | nil =>
    intro _
    rw [extractElems.eq_def]
    rfl
  | cons e rest =>
    intro hwf
    rw [wfOptNodeList_cons] at hwf
    rw [extractElems_cons]
    cases e with
    | none =>
      have ih := c7deep_elems rest ts (i + 1) hwf
      rw [extractParam.eq_def]
      rw [optParamsDeepAll.eq_def]
      exact ih
    | some q =>
      simp only [Bool.and_eq_true] at hwf
      have ih := c7deep_elems rest ts (i + 1) hwf.2
      cases hext : extractParam (some q) ts i with
      | none =>
        rw [optParamsDeepAll.eq_def]
        exact ih
      | some pr =>
        have h1 := (c7deep_param q ts i hwf.1 pr hext).1
        rw [optParamsDeepAll.eq_def]
        simp only [Bool.and_eq_true]
        exact ⟨h1, ih⟩
termination_by sizeOf es
decreasing_by
  all_goals simp
  all_goals omega

end

/-- Claim C7: every rest-element pattern — at top level via `extractParam` or
nested inside an object pattern via the property loop — extracts to a
Parameter with `isRest` set and `hasDefault` clear; and over every
grammar-well-formed pattern (real parsers never default a rest element) no
Parameter anywhere in the extraction result has both `isRest` and
`hasDefault` set. -/
theorem c7_rest_never_default :
    (∀ (arg : Node) (ts : Bool) (i : Nat) (pr : Parameter),
        extractParam (some (.restElem arg)) ts i = some pr →
        pr.isRest = true ∧ pr.hasDefault = false) ∧
    (∀ (a : Node) (ts : Bool) (pr : Parameter),
        extractOneProp (.restElem a) ts = some pr →
        pr.isRest = true ∧ pr.hasDefault = false) ∧
    (∀ (p : Node) (ts : Bool) (i : Nat) (pr : Parameter), wfNode p = true →
        extractParam (some p) ts i = some pr →
        paramDeepAll noRestWithDefault pr = true) := by
  refine ⟨?_, ?_, ?_⟩
  · intro arg ts i pr hext
    rw [extractParam.eq_def] at hext
    simp only [Option.some.injEq] at hext
    rw [← hext]
    exact ⟨rfl, rfl⟩
  · intro a ts pr hext
    rw [extractOneProp.eq_def] at hext
    simp only [Option.some.injEq] at hext
    rw [← hext]
    exact ⟨rfl, rfl⟩
  · intro p ts i pr hwf hext
    exact (c7deep_param p ts i hwf pr hext).1

/-- Claim C7 (witness): a top-level rest parameter extracts with `isRest` and
without `hasDefault`, and the deep invariant holds on `function g(...args)`'s
parameter. -/
theorem c7_witness :
    (Parameter.mk (some "...args") "Array<any>" true false false false
        none none none).isRest = true ∧
    (Parameter.mk (some "...args") "Array<any>" true false false false
        none none none).hasDefault = false ∧
    paramDeepAll noRestWithDefault
      (Parameter.mk (some "...args") "Array<any>" true false false false
        none none none) = true := by
  have hev : extractParam (some (.restElem (.identifier "args" none))) false 1 =
      some (Parameter.mk (some "...args") "Array<any>" true false false false
        none none none) := by
    rw [extractParam.eq_def]
    simp [getPropertyName, keyOfNode, argOfNode, nameOfNode, jsStr]
  have h1 := c7_rest_never_default.1 (.identifier "args" none) false 1 _ hev
  have h2 := c7_rest_never_default.2.2 (.restElem (.identifier "args" none))
    false 1 _ (by rw [wfNode.eq_def]; rfl) hev
  exact ⟨h1.1, h1.2, h2⟩
